import Mathlib

/-!
Verification development for the HouseAI task-orchestration engine.

The definitions below are a shallow embedding of the Python sources:
  * `services/enhanced_multi_agent_service.py`
      - `EnhancedMultiAgentOrchestrator.check_dependencies`
      - `EnhancedMultiAgentOrchestrator.process_user_message` (scheduling loop)
      - `EnhancedMultiAgentOrchestrator._combine_results`
      - `TaskParser._create_simple_task_from_llm` / `_create_complex_tasks_from_llm`
  * `services/agents/search_agent.py`
      - `SearchAgent.get_embedding`, `SearchAgent.hybrid_search`,
        `SearchAgent.search_properties`
  * `services/agents/utils.py`
      - `resolve_references`, `extract_location_from_query`

External effects (LLM calls, MongoDB queries, the OS temp file) are passed in
as explicit arguments; machine floats are modelled with `ℚ`.
-/

namespace HouseAI

/-! ## Scheduler model

`AgentTask` (dataclass) carries `task_id`, `dependencies`, `priority.value`.
The mutable `status`/`result` fields are represented by the scheduler state:
a task is `pending` while it sits in `pending`, and its terminal status is the
`Bool` stored in the `completed` association list (`true` = "completed",
`false` = "failed", as produced by `execute_task`, which returns the task with
status "completed" on success and "failed" on timeout or provider exception).
-/

structure STask where
  taskId : String
  dependencies : List String
  priority : Nat
deriving DecidableEq, Repr

/-- Scheduler state: `pending` models the `pending_tasks` dict (insertion
order), `completed` models the `self.completed_tasks` dict as an association
list whose most recent write is the head, and `trace` records the task ids in
the order their execution begins. -/
structure SchedState where
  pending : List STask
  completed : List (String × Bool)
  trace : List String
deriving DecidableEq, Repr

/-- Dict lookup in `self.completed_tasks`: the most recent write wins. -/
def lookupStatus : List (String × Bool) → String → Option Bool
  | [], _ => none
  | (k, v) :: rest, id => if k = id then some v else lookupStatus rest id

/-- `EnhancedMultiAgentOrchestrator.check_dependencies` (lines 2333-2340):
every dependency id must be present in `completed_tasks` with status
"completed". -/
def check_dependencies (completed : List (String × Bool)) (t : STask) : Bool :=
  t.dependencies.all fun d => decide (lookupStatus completed d = some true)

/-- One task execution: `execute_task` returns the task with a terminal
status (`outcome id = true` for "completed", `false` for "failed"); the loop
then records it in `completed_tasks` and pops it from `pending_tasks`. -/
def exec_task (outcome : String → Bool) (st : SchedState) (t : STask) : SchedState :=
  { pending := st.pending.filter fun u => decide ¬(u.taskId = t.taskId)
    completed := (t.taskId, outcome t.taskId) :: st.completed
    trace := st.trace ++ [t.taskId] }

/-- The ready set: pending tasks whose dependencies all check out. -/
def ready_tasks (st : SchedState) : List STask :=
  st.pending.filter fun t => check_dependencies st.completed t

/-- Sequential dispatch of one dependency-bearing task: re-check
`check_dependencies`, then execute (the source skips the task otherwise). -/
def seq_step (outcome : String → Bool) (s : SchedState) (t : STask) : SchedState :=
  if check_dependencies s.completed t then exec_task outcome s t else s

/-- One iteration of the `while pending_tasks:` loop in
`process_user_message` (lines 2368-2401).  `none` models the `break` taken
when no ready task exists.  The concurrent `asyncio.gather` batch is executed
in dispatch order (single-threaded cooperative runtime); the
dependency-bearing tasks are then run one at a time, re-checking
`check_dependencies` before each. -/
def run_iteration (outcome : String → Bool) (st : SchedState) : Option SchedState :=
  let ready := ready_tasks st
  if ready.isEmpty then none
  else
    let sorted := ready.insertionSort fun a b => a.priority ≤ b.priority
    let parallel := sorted.filter fun t => t.dependencies.isEmpty
    let sequential := sorted.filter fun t => !t.dependencies.isEmpty
    some (sequential.foldl (seq_step outcome) (parallel.foldl (exec_task outcome) st))

/-- The scheduling loop, with fuel; each productive iteration pops at least
one pending task, so `tasks.length` iterations reach the loop's own exit. -/
def run_loop (outcome : String → Bool) : Nat → SchedState → SchedState
  | 0, st => st
  | fuel + 1, st =>
    match run_iteration outcome st with
    | none => st
    | some st2 => run_loop outcome fuel st2

/-- The scheduling part of `process_user_message`: run the graph `tasks`
starting from the instance-level `completed_tasks` map `initCompleted`
(which `__init__` creates once per orchestrator and no run ever clears). -/
def process_run (outcome : String → Bool) (tasks : List STask)
    (initCompleted : List (String × Bool)) : SchedState :=
  run_loop outcome tasks.length
    { pending := tasks, completed := initCompleted, trace := [] }

/-- A task depending on itself: the ready set is empty at once. -/
def cycTask : STask := { taskId := "a", dependencies := ["a"], priority := 2 }

/-- C1 counterexample.  The claim says that when the ready set is empty while
pending tasks remain, each remaining task is marked failed with a
cyclic-dependency error.  On the self-dependent graph `[cycTask]` the loop
merely `break`s: the task is still pending afterwards and `completed_tasks`
holds no (failed or otherwise) entry for it. -/
theorem scheduler_break_leaves_pending_cx :
    (process_run (fun _ => true) [cycTask] []).pending = [cycTask] ∧
    lookupStatus (process_run (fun _ => true) [cycTask] []).completed "a" = none :=
  ⟨rfl, rfl⟩

/-- A task whose single dependency names a task id that only an earlier run
completed. -/
def staleDepTask : STask := { taskId := "d", dependencies := ["p"], priority := 2 }

/-- C2 counterexample.  With the instance map still holding `("p", true)`
from an earlier run, the task `d` (whose dependency `p` is not even in this
run's graph) is dispatched immediately; on a fresh map it is never
dispatched.  So dependency checks do draw on completed tasks recorded by
earlier runs of the same orchestrator instance. -/
theorem dependency_check_stale_run_cx :
    (process_run (fun _ => true) [staleDepTask] [("p", true)]).trace = ["d"] ∧
    (process_run (fun _ => true) [staleDepTask] []).trace = [] :=
  ⟨rfl, rfl⟩

/-- A dependency-free task whose execution fails. -/
def failTask : STask := { taskId := "p1", dependencies := [], priority := 1 }

/-- A task depending on `failTask`. -/
def depTask : STask := { taskId := "d1", dependencies := ["p1"], priority := 2 }

/-- C3 counterexample.  The claim says a failed predecessor's dependent is
still dispatched.  Running `[failTask, depTask]` with `failTask` failing, the
trace contains only `p1`: `d1` is never dispatched and remains pending. -/
theorem failed_predecessor_blocks_dependent_cx :
    (process_run (fun _ => false) [failTask, depTask] []).trace = ["p1"] ∧
    (process_run (fun _ => false) [failTask, depTask] []).pending = [depTask] :=
  ⟨rfl, rfl⟩

/-! ### Scheduler invariant -/

/-- Run invariant tying the scheduler state to the graph `G` it was started
on (with an empty `completed_tasks` map). -/
structure SchedInv (G : List STask) (outcome : String → Bool) (st : SchedState) : Prop where
  sub : st.pending.Sublist G
  fresh : ∀ u ∈ st.pending, u.taskId ∉ st.trace
  compTrace : ∀ id b, lookupStatus st.completed id = some b → id ∈ st.trace ∧ b = outcome id
  traceComp : ∀ id ∈ st.trace, lookupStatus st.completed id = some (outcome id)
  depsBefore : ∀ t ∈ G, t.taskId ∈ st.trace → ∀ d ∈ t.dependencies,
    outcome d = true ∧ ∃ l1 l2, st.trace = l1 ++ t.taskId :: l2 ∧ d ∈ l1
  cover : ∀ t ∈ G, t ∈ st.pending ∨ t.taskId ∈ st.trace
  traceIds : ∀ id ∈ st.trace, id ∈ G.map STask.taskId

theorem sched_inv_init (G : List STask) (outcome : String → Bool) :
    SchedInv G outcome { pending := G, completed := [], trace := [] } := by
  constructor
  · exact List.Sublist.refl G
  · intro u _ h
    cases h
  · intro id b h
    cases h
  · intro id h
    cases h
  · intro t _ h
    cases h
  · intro t ht
    exact Or.inl ht
  · intro id h
    cases h

theorem sched_inv_exec {G : List STask} {outcome : String → Bool} {st : SchedState}
    {t : STask} (hndp : (G.map STask.taskId).Nodup) (h : SchedInv G outcome st)
    (ht : t ∈ G) (hchk : check_dependencies st.completed t = true) :
    SchedInv G outcome (exec_task outcome st t) := by
  constructor
  · exact (List.filter_sublist _).trans h.sub
  · intro u hu hmem
    simp only [exec_task, List.mem_filter, decide_eq_true_eq] at hu
    simp only [exec_task, List.mem_append, List.mem_singleton] at hmem
    rcases hmem with hmem | hmem
    · exact h.fresh u hu.1 hmem
    · exact hu.2 hmem
  · intro id b hb
    simp only [exec_task, lookupStatus] at hb
    by_cases hid : t.taskId = id
    · rw [if_pos hid] at hb
      injection hb with hb
      subst hid
      constructor
      · simp [exec_task]
      · exact hb.symm
    · rw [if_neg hid] at hb
      obtain ⟨h1, h2⟩ := h.compTrace id b hb
      exact ⟨by simp [exec_task, h1], h2⟩
  · intro id hid
    by_cases heq : t.taskId = id
    · subst heq
      simp [exec_task, lookupStatus]
    · simp only [exec_task, List.mem_append, List.mem_singleton] at hid
      rcases hid with hid | hid
      · simpa [exec_task, lookupStatus, heq] using h.traceComp id hid
      · exact absurd hid.symm heq
  · intro u hu hmem d hd
    simp only [exec_task, List.mem_append, List.mem_singleton] at hmem
    rcases hmem with hmem | hmem
    · obtain ⟨hout, l1, l2, heq, hdl1⟩ := h.depsBefore u hu hmem d hd
      refine ⟨hout, l1, l2 ++ [t.taskId], ?_, hdl1⟩
      simp [exec_task, heq]
    · have hut : u = t := List.inj_on_of_nodup_map hndp hu ht hmem
      subst hut
      have hall := List.all_eq_true.mp hchk d hd
      have hl : lookupStatus st.completed d = some true := of_decide_eq_true hall
      obtain ⟨hdt, hbo⟩ := h.compTrace d true hl
      exact ⟨hbo.symm, st.trace, [], by simp [exec_task], hdt⟩
  · intro u hu
    rcases h.cover u hu with hc | hc
    · by_cases heq : u.taskId = t.taskId
      · right
        simp [exec_task, heq]
      · left
        simp only [exec_task, List.mem_filter, decide_eq_true_eq]
        exact ⟨hc, heq⟩
    · right
      simp [exec_task, hc]
  · intro id hid
    simp only [exec_task, List.mem_append, List.mem_singleton] at hid
    rcases hid with hid | hid
    · exact h.traceIds id hid
    · subst hid
      exact List.mem_map_of_mem STask.taskId ht

theorem sched_inv_fold_par {G : List STask} {outcome : String → Bool}
    (hndp : (G.map STask.taskId).Nodup) :
    ∀ (ts : List STask) (st : SchedState), SchedInv G outcome st →
      (∀ x ∈ ts, x ∈ G ∧ x.dependencies = []) →
      SchedInv G outcome (ts.foldl (exec_task outcome) st) := by
  intro ts
  induction ts with
  | nil => intro st h _; exact h
  | cons x xs ih =>
    intro st h hmem
    have hx := hmem x (List.mem_cons_self x xs)
    have hchk : check_dependencies st.completed x = true := by
      simp [check_dependencies, hx.2]
    exact ih _ (sched_inv_exec hndp h hx.1 hchk) fun y hy => hmem y (List.mem_cons_of_mem x hy)

theorem sched_inv_fold_seq {G : List STask} {outcome : String → Bool}
    (hndp : (G.map STask.taskId).Nodup) :
    ∀ (ts : List STask) (st : SchedState), SchedInv G outcome st →
      (∀ x ∈ ts, x ∈ G) →
      SchedInv G outcome (ts.foldl (seq_step outcome) st) := by
  intro ts
  induction ts with
  | nil => intro st h _; exact h
  | cons x xs ih =>
    intro st h hmem
    have hx := hmem x (List.mem_cons_self x xs)
    have hstep : SchedInv G outcome (seq_step outcome st x) := by
      unfold seq_step
      by_cases hc : check_dependencies st.completed x = true
      · rw [if_pos hc]
        exact sched_inv_exec hndp h hx hc
      · rw [if_neg hc]
        exact h
    exact ih _ hstep fun y hy => hmem y (List.mem_cons_of_mem x hy)

theorem mem_ready_tasks {st : SchedState} {t : STask} (h : t ∈ ready_tasks st) :
    t ∈ st.pending ∧ check_dependencies st.completed t = true := by
  simpa [ready_tasks] using List.mem_filter.mp h

theorem sched_inv_iteration {G : List STask} {outcome : String → Bool} {st st2 : SchedState}
    (hndp : (G.map STask.taskId).Nodup) (h : SchedInv G outcome st)
    (hit : run_iteration outcome st = some st2) : SchedInv G outcome st2 := by
  unfold run_iteration at hit
  by_cases hrdy : (ready_tasks st).isEmpty
  · rw [if_pos hrdy] at hit
    cases hit
  · rw [if_neg hrdy] at hit
    injection hit with hit
    subst hit
    have hsortmem : ∀ x ∈ (ready_tasks st).insertionSort fun a b => a.priority ≤ b.priority,
        x ∈ ready_tasks st := by
      intro x hx
      exact (List.perm_insertionSort (fun a b => a.priority ≤ b.priority) (ready_tasks st)).subset hx
    apply sched_inv_fold_seq hndp
    · apply sched_inv_fold_par hndp _ _ h
      intro x hx
      have hx' := List.mem_filter.mp hx
      have hxr := mem_ready_tasks (hsortmem x hx'.1)
      refine ⟨h.sub.subset hxr.1, ?_⟩
      simpa [List.isEmpty_iff] using hx'.2
    · intro x hx
      have hx' := List.mem_filter.mp hx
      have hxr := mem_ready_tasks (hsortmem x hx'.1)
      exact h.sub.subset hxr.1

theorem sched_inv_run_loop {G : List STask} {outcome : String → Bool}
    (hndp : (G.map STask.taskId).Nodup) :
    ∀ (fuel : Nat) (st : SchedState), SchedInv G outcome st →
      SchedInv G outcome (run_loop outcome fuel st) := by
  intro fuel
  induction fuel with
  | zero => intro st h; exact h
  | succ fuel ih =>
    intro st h
    unfold run_loop
    cases hit : run_iteration outcome st with
    | none => exact h
    | some st2 => exact ih st2 (sched_inv_iteration hndp h hit)

/-! ### Progress and termination -/

theorem length_filter_lt {α : Type} (p : α → Bool) (l : List α) (a : α)
    (ha : a ∈ l) (hpa : p a = false) : (l.filter p).length < l.length := by
  induction l with
  | nil => cases ha
  | cons x xs ih =>
    rcases List.mem_cons.mp ha with rfl | hmem
    · rw [List.filter_cons_of_neg (by simp [hpa])]
      exact Nat.lt_succ_of_le (List.length_filter_le p xs)
    · cases hp : p x with
      | true =>
        rw [List.filter_cons_of_pos hp]
        exact Nat.succ_lt_succ (ih hmem)
      | false =>
        rw [List.filter_cons_of_neg (by simp [hp])]
        exact Nat.lt_succ_of_lt (ih hmem)

theorem exec_task_length_lt {outcome : String → Bool} {st : SchedState} {t : STask}
    (hmem : t ∈ st.pending) :
    (exec_task outcome st t).pending.length < st.pending.length := by
  exact length_filter_lt _ _ t hmem (by simp)

theorem exec_task_length_le (outcome : String → Bool) (st : SchedState) (t : STask) :
    (exec_task outcome st t).pending.length ≤ st.pending.length :=
  List.length_filter_le _ _

theorem fold_par_length_le (outcome : String → Bool) :
    ∀ (ts : List STask) (st : SchedState),
      (ts.foldl (exec_task outcome) st).pending.length ≤ st.pending.length := by
  intro ts
  induction ts with
  | nil => intro st; exact Nat.le_refl _
  | cons x xs ih =>
    intro st
    exact (ih (exec_task outcome st x)).trans (exec_task_length_le outcome st x)

theorem seq_step_length_le (outcome : String → Bool) (st : SchedState) (t : STask) :
    (seq_step outcome st t).pending.length ≤ st.pending.length := by
  unfold seq_step
  split
  · exact exec_task_length_le outcome st t
  · exact Nat.le_refl _

theorem fold_seq_length_le (outcome : String → Bool) :
    ∀ (ts : List STask) (st : SchedState),
      (ts.foldl (seq_step outcome) st).pending.length ≤ st.pending.length := by
  intro ts
  induction ts with
  | nil => intro st; exact Nat.le_refl _
  | cons x xs ih =>
    intro st
    exact (ih (seq_step outcome st x)).trans (seq_step_length_le outcome st x)

theorem run_iteration_decrease {outcome : String → Bool} {st st2 : SchedState}
    (hit : run_iteration outcome st = some st2) :
    st2.pending.length < st.pending.length := by
  unfold run_iteration at hit
  by_cases hrdy : (ready_tasks st).isEmpty
  · rw [if_pos hrdy] at hit
    cases hit
  · rw [if_neg hrdy] at hit
    injection hit with hit
    subst hit
    have hsortmem : ∀ x ∈ (ready_tasks st).insertionSort fun a b => a.priority ≤ b.priority,
        x ∈ ready_tasks st := by
      intro x hx
      exact (List.perm_insertionSort (fun a b => a.priority ≤ b.priority) (ready_tasks st)).subset hx
    set sorted := (ready_tasks st).insertionSort fun a b => a.priority ≤ b.priority with hsorted
    cases hpar : sorted.filter fun t => t.dependencies.isEmpty with
    | cons p ps =>
      have hpmem : p ∈ st.pending := by
        have : p ∈ sorted.filter fun t => t.dependencies.isEmpty := by rw [hpar]; exact List.mem_cons_self p ps
        exact (mem_ready_tasks (hsortmem p (List.mem_filter.mp this).1)).1
      calc (((sorted.filter fun t => !t.dependencies.isEmpty).foldl (seq_step outcome)
              ((p :: ps).foldl (exec_task outcome) st))).pending.length
          ≤ ((p :: ps).foldl (exec_task outcome) st).pending.length :=
            fold_seq_length_le outcome _ _
        _ ≤ (exec_task outcome st p).pending.length := fold_par_length_le outcome ps _
        _ < st.pending.length := exec_task_length_lt hpmem
    | nil =>
      have hsne : sorted ≠ [] := by
        intro hnil
        have : ready_tasks st = [] :=
          List.Perm.eq_nil (by rw [← hnil]; exact (List.perm_insertionSort _ _).symm)
        rw [List.isEmpty_iff] at hrdy
        exact hrdy this
      cases hseq : sorted.filter fun t => !t.dependencies.isEmpty with
      | nil =>
        exfalso
        obtain ⟨s0, hs0⟩ := List.exists_mem_of_ne_nil sorted hsne
        cases hdep : s0.dependencies.isEmpty with
        | true =>
          have : s0 ∈ sorted.filter fun t => t.dependencies.isEmpty :=
            List.mem_filter.mpr ⟨hs0, hdep⟩
          rw [hpar] at this
          cases this
        | false =>
          have : s0 ∈ sorted.filter fun t => !t.dependencies.isEmpty :=
            List.mem_filter.mpr ⟨hs0, by simp [hdep]⟩
          rw [hseq] at this
          cases this
      | cons q qs =>
        have hqready := mem_ready_tasks (hsortmem q (List.mem_filter.mp
          (by rw [hseq]; exact List.mem_cons_self q qs)).1)
        have hstep : seq_step outcome st q = exec_task outcome st q := by
          unfold seq_step
          rw [if_pos hqready.2]
        simp only [List.foldl_nil, List.foldl_cons]
        calc ((qs.foldl (seq_step outcome) (seq_step outcome st q))).pending.length
            ≤ (seq_step outcome st q).pending.length := fold_seq_length_le outcome qs _
          _ < st.pending.length := by
              rw [hstep]
              exact exec_task_length_lt hqready.1

theorem ready_tasks_ne_empty {G : List STask} {outcome : String → Bool} {st : SchedState}
    (f : String → Nat)
    (hclosed : ∀ t ∈ G, ∀ d ∈ t.dependencies, d ∈ G.map STask.taskId)
    (hrank : ∀ t ∈ G, ∀ d ∈ t.dependencies, f d < f t.taskId)
    (hout : ∀ t ∈ G, outcome t.taskId = true)
    (h : SchedInv G outcome st) (hp : st.pending ≠ []) :
    (ready_tasks st).isEmpty = false := by
  have hargmin : st.pending.argmin (fun u => f u.taskId) ≠ none := by
    simpa [List.argmin_eq_none] using hp
  obtain ⟨m, hm⟩ := Option.ne_none_iff_exists'.mp hargmin
  have hm' : m ∈ st.pending.argmin (fun u => f u.taskId) := Option.mem_def.mpr hm
  have hmem : m ∈ st.pending := List.argmin_mem hm'
  have hmG : m ∈ G := h.sub.subset hmem
  have hchk : check_dependencies st.completed m = true := by
    rw [check_dependencies, List.all_eq_true]
    intro d hd
    have hdG := hclosed m hmG d hd
    obtain ⟨u, huG, hud⟩ := List.mem_map.mp hdG
    rcases h.cover u huG with hup | hut
    · exfalso
      have h1pre := List.le_of_mem_argmin hup hm'
      have h1 : f m.taskId ≤ f u.taskId := h1pre
      have h2 : f u.taskId < f m.taskId := by
        rw [hud]
        exact hrank m hmG d hd
      omega
    · have := h.traceComp u.taskId hut
      rw [hout u huG] at this
      rw [hud] at this
      simp [this]
  have hready : m ∈ ready_tasks st := List.mem_filter.mpr ⟨hmem, hchk⟩
  cases hcase : (ready_tasks st).isEmpty with
  | false => rfl
  | true =>
    exfalso
    rw [List.isEmpty_iff] at hcase
    rw [hcase] at hready
    cases hready

theorem run_loop_drains {G : List STask} {outcome : String → Bool} (f : String → Nat)
    (hndp : (G.map STask.taskId).Nodup)
    (hclosed : ∀ t ∈ G, ∀ d ∈ t.dependencies, d ∈ G.map STask.taskId)
    (hrank : ∀ t ∈ G, ∀ d ∈ t.dependencies, f d < f t.taskId)
    (hout : ∀ t ∈ G, outcome t.taskId = true) :
    ∀ (fuel : Nat) (st : SchedState), SchedInv G outcome st → st.pending.length ≤ fuel →
      (run_loop outcome fuel st).pending = [] ∧ SchedInv G outcome (run_loop outcome fuel st) := by
  intro fuel
  induction fuel with
  | zero =>
    intro st h hlen
    have : st.pending = [] := List.length_eq_zero.mp (Nat.le_zero.mp hlen)
    exact ⟨this, h⟩
  | succ fuel ih =>
    intro st h hlen
    by_cases hp : st.pending = []
    · have hrdy : (ready_tasks st).isEmpty = true := by
        simp [ready_tasks, hp]
      have hit : run_iteration outcome st = none := by
        unfold run_iteration
        rw [if_pos hrdy]
      unfold run_loop
      rw [hit]
      exact ⟨hp, h⟩
    · have hrdy := ready_tasks_ne_empty f hclosed hrank hout h hp
      have hit : ∃ st2, run_iteration outcome st = some st2 := by
        unfold run_iteration
        rw [if_neg (by rw [hrdy]; exact Bool.false_ne_true)]
        exact ⟨_, rfl⟩
      obtain ⟨st2, h2⟩ := hit
      have hinv2 := sched_inv_iteration hndp h h2
      have hdec := run_iteration_decrease h2
      have hlen2 : st2.pending.length ≤ fuel := by omega
      have := ih st2 hinv2 hlen2
      unfold run_loop
      rw [h2]
      exact this

/-! ### The claims about the scheduler -/

/-- C1 (amended).  When the ready set is empty while pending tasks remain
the loop exits unchanged, leaving those tasks pending rather than marking
them failed; and for every graph with in-graph, rank-decreasing (hence
acyclic) dependencies, run on a fresh orchestrator whose executions all
succeed, the scheduler terminates with every task of the run completed. -/
theorem scheduler_acyclic_all_completed (G : List STask) (outcome : String → Bool)
    (f : String → Nat)
    (hndp : (G.map STask.taskId).Nodup)
    (hclosed : ∀ t ∈ G, ∀ d ∈ t.dependencies, d ∈ G.map STask.taskId)
    (hrank : ∀ t ∈ G, ∀ d ∈ t.dependencies, f d < f t.taskId)
    (hout : ∀ t ∈ G, outcome t.taskId = true) :
    (∀ (st : SchedState) (fuel : Nat), (ready_tasks st).isEmpty = true →
      run_loop outcome (fuel + 1) st = st) ∧
    (process_run outcome G []).pending = [] ∧
    ∀ t ∈ G, lookupStatus (process_run outcome G []).completed t.taskId = some true := by
  refine ⟨?_, ?_⟩
  · intro st fuel hrdy
    unfold run_loop run_iteration
    rw [if_pos hrdy]
  · unfold process_run
    have hinit := sched_inv_init G outcome
    obtain ⟨hpend, hinv⟩ := run_loop_drains f hndp hclosed hrank hout G.length
      { pending := G, completed := [], trace := [] } hinit (Nat.le_refl _)
    refine ⟨hpend, ?_⟩
    intro t ht
    rcases hinv.cover t ht with hc | hc
    · rw [hpend] at hc
      cases hc
    · have := hinv.traceComp t.taskId hc
      rw [hout t ht] at this
      exact this

/-- Witness for C1: a two-task chain, all executions succeeding. -/
theorem scheduler_acyclic_all_completed_witness :
    (([⟨"a", [], 1⟩, ⟨"b", ["a"], 2⟩] : List STask).map STask.taskId).Nodup ∧
    (process_run (fun _ => true) [⟨"a", [], 1⟩, ⟨"b", ["a"], 2⟩] []).pending = [] ∧
    ∀ t ∈ ([⟨"a", [], 1⟩, ⟨"b", ["a"], 2⟩] : List STask),
      lookupStatus (process_run (fun _ => true) [⟨"a", [], 1⟩, ⟨"b", ["a"], 2⟩] []).completed
        t.taskId = some true := by
  refine ⟨by decide, ?_⟩
  exact (scheduler_acyclic_all_completed [⟨"a", [], 1⟩, ⟨"b", ["a"], 2⟩] (fun _ => true)
    (fun id => if id = "b" then 1 else 0) (by decide) (by decide) (by decide)
    (by intro t ht; rfl)).2

/-- C2 (amended).  A task begins executing only once every dependency id is
mapped to a successfully completed task in the orchestrator-level
`completed_tasks` map; that map outlives a run, so an entry written by an
earlier run of the same instance can satisfy the check (see the
counterexample).  On a fresh orchestrator (empty map) every dependency of a
dispatched task was dispatched earlier in the same run and completed. -/
theorem deps_completed_before_dispatch (G : List STask) (outcome : String → Bool)
    (hndp : (G.map STask.taskId).Nodup) :
    ∀ t ∈ G, t.taskId ∈ (process_run outcome G []).trace →
      ∀ d ∈ t.dependencies, outcome d = true ∧
        ∃ l1 l2, (process_run outcome G []).trace = l1 ++ t.taskId :: l2 ∧ d ∈ l1 := by
  have hinv := sched_inv_run_loop hndp G.length
    { pending := G, completed := [], trace := [] } (sched_inv_init G outcome)
  exact hinv.depsBefore

/-- Witness for C2: in the chain run, `b` was dispatched and its dependency
`a` completed strictly earlier in the same run. -/
theorem deps_completed_before_dispatch_witness :
    (([⟨"a", [], 1⟩, ⟨"b", ["a"], 2⟩] : List STask).map STask.taskId).Nodup ∧
    ∀ d ∈ (⟨"b", ["a"], 2⟩ : STask).dependencies, (fun _ => true : String → Bool) d = true ∧
      ∃ l1 l2, (process_run (fun _ => true) [⟨"a", [], 1⟩, ⟨"b", ["a"], 2⟩] []).trace =
        l1 ++ "b" :: l2 ∧ d ∈ l1 := by
  refine ⟨by decide, ?_⟩
  exact deps_completed_before_dispatch [⟨"a", [], 1⟩, ⟨"b", ["a"], 2⟩] (fun _ => true)
    (by decide) ⟨"b", ["a"], 2⟩ (by decide) (by decide)

/-- C3 (amended).  A failed predecessor blocks its dependents: on a fresh
orchestrator, if a dependency of `D` fails then `D` is never dispatched and
the run ends with `D` still pending (neither executed nor marked failed). -/
theorem failed_predecessor_dependent_never_runs (G : List STask) (outcome : String → Bool)
    (hndp : (G.map STask.taskId).Nodup) (P D : STask) (hD : D ∈ G)
    (hdep : P.taskId ∈ D.dependencies) (hfail : outcome P.taskId = false) :
    D.taskId ∉ (process_run outcome G []).trace ∧ D ∈ (process_run outcome G []).pending := by
  have hinv := sched_inv_run_loop hndp G.length
    { pending := G, completed := [], trace := [] } (sched_inv_init G outcome)
  have hnotrace : D.taskId ∉ (process_run outcome G []).trace := by
    intro hmem
    obtain ⟨hout, _⟩ := hinv.depsBefore D hD hmem P.taskId hdep
    rw [hfail] at hout
    exact Bool.false_ne_true hout
  refine ⟨hnotrace, ?_⟩
  rcases hinv.cover D hD with hc | hc
  · exact hc
  · exact absurd hc hnotrace

/-- Witness for C3: with `p1` failing, `d1` ends the run still pending. -/
theorem failed_predecessor_dependent_never_runs_witness :
    (([⟨"p1", [], 1⟩, ⟨"d1", ["p1"], 2⟩] : List STask).map STask.taskId).Nodup ∧
    "d1" ∉ (process_run (fun _ => false) [⟨"p1", [], 1⟩, ⟨"d1", ["p1"], 2⟩] []).trace ∧
    (⟨"d1", ["p1"], 2⟩ : STask) ∈
      (process_run (fun _ => false) [⟨"p1", [], 1⟩, ⟨"d1", ["p1"], 2⟩] []).pending := by
  refine ⟨by decide, ?_⟩
  exact failed_predecessor_dependent_never_runs [⟨"p1", [], 1⟩, ⟨"d1", ["p1"], 2⟩]
    (fun _ => false) (by decide) ⟨"p1", [], 1⟩ ⟨"d1", ["p1"], 2⟩ (by decide) (by decide) rfl

/-! ## Result aggregator (`_combine_results`, lines 2408-2620)

Tasks carry a `task_type` (the `TaskType` enum), a `status` string, an
optional `result` dict and an `error` string.  The `result` dict keys read by
`_combine_results` are modelled as a structure whose fields default to the
`dict.get` defaults; listing records are tracked at identifier granularity
(`Nat`), since the final PropertyItem normalization annotates each record in
place without changing which records appear or their order. -/

inductive ATType
  | search
  | similaritySearch
  | analysis
  | recommendation
  | comparison
  | wishlist
  | chat
deriving DecidableEq, Repr

/-- `TaskType.value` strings, used in the failure message. -/
def task_type_value : ATType → String
  | .search => "search"
  | .similaritySearch => "similarity_search"
  | .analysis => "analysis"
  | .recommendation => "recommendation"
  | .comparison => "comparison"
  | .wishlist => "wishlist"
  | .chat => "chat"

/-- The `task_order` precedence dict (search → 1 … chat → 7). -/
def task_order : ATType → Nat
  | .search => 1
  | .similaritySearch => 2
  | .recommendation => 3
  | .comparison => 4
  | .analysis => 5
  | .wishlist => 6
  | .chat => 7

/-- A `search_results`-style dict; only its `results` list matters to the
aggregator (`total_count`/`message` are carried along unread). -/
structure SearchResults where
  results : List Nat
deriving DecidableEq, Repr

/-- The keys `_combine_results` reads from `task.result`, with the
`dict.get` defaults. -/
structure TaskResult where
  searchResults : SearchResults := ⟨[]⟩
  response : String := ""
  recommendationResponse : String := ""
  recommendationData : SearchResults := ⟨[]⟩
  comparisonResponse : String := ""
  comparisonData : SearchResults := ⟨[]⟩
  analysisResponse : String := ""
  analyzedData : SearchResults := ⟨[]⟩
  wishlistData : SearchResults := ⟨[]⟩
  wishlistSearchResults : SearchResults := ⟨[]⟩
deriving DecidableEq, Repr

structure CTask where
  taskType : ATType
  status : String
  result : Option TaskResult
  error : String := ""
deriving DecidableEq, Repr

/-- Aggregation state of the `for task in completed_tasks` loop:
`combined_response`, `final_search_results`, `result_type`,
`search_results_set`. -/
structure CombineAcc where
  combinedResponse : List String
  finalSearchResults : SearchResults
  resultType : String
  searchResultsSet : Bool
deriving DecidableEq, Repr

/-- The per-task-type body of the aggregation loop (the
`task.status == "completed" and task.result` case). -/
def combine_branch (acc : CombineAcc) (ty : ATType) (r : TaskResult) : CombineAcc :=
  match ty with
  | .search =>
    let acc1 := if acc.searchResultsSet = false ∧ r.searchResults.results ≠ [] then
        { acc with finalSearchResults := r.searchResults, searchResultsSet := true }
      else acc
    if r.searchResults.results ≠ [] ∨ r.response ≠ "" then
      { acc1 with
        resultType := "search_result"
        combinedResponse := acc1.combinedResponse ++
          [if r.response ≠ "" then "🔍 **매물 검색 결과**\n\n" ++ r.response
           else "🔍 **매물 검색 결과**\n\n검색이 완료되었습니다."] }
    else
      { acc1 with combinedResponse := acc1.combinedResponse ++
          ["🔍 **매물 검색 결과**\n\n검색 결과가 없습니다."] }
  | .similaritySearch =>
    let acc1 := if acc.searchResultsSet = false ∧ r.searchResults.results ≠ [] then
        { acc with finalSearchResults := r.searchResults, searchResultsSet := true }
      else acc
    if r.searchResults.results ≠ [] ∨ r.response ≠ "" then
      { acc1 with
        resultType := "search_result"
        combinedResponse := acc1.combinedResponse ++
          [if r.response ≠ "" then "🔍 **유사 매물 검색 결과**\n\n" ++ r.response
           else "🔍 **유사 매물 검색 결과**\n\n유사 매물 검색이 완료되었습니다."] }
    else
      { acc1 with combinedResponse := acc1.combinedResponse ++
          ["🔍 **유사 매물 검색 결과**\n\n유사한 매물을 찾을 수 없습니다."] }
  | .recommendation =>
    let acc1 := if acc.searchResultsSet = false ∧ r.recommendationData.results ≠ [] then
        { acc with
          finalSearchResults := r.recommendationData
          resultType := "search_result"
          searchResultsSet := true }
      else acc
    { acc1 with combinedResponse := acc1.combinedResponse ++
        ["💡 **매물 추천 결과**\n\n" ++ r.recommendationResponse] }
  | .comparison =>
    let acc1 := if acc.searchResultsSet = false ∧ r.comparisonData.results ≠ [] then
        { acc with
          finalSearchResults := r.comparisonData
          resultType := "search_result"
          searchResultsSet := true }
      else acc
    { acc1 with combinedResponse := acc1.combinedResponse ++
        ["⚖️ **매물 비교 결과**\n\n" ++ r.comparisonResponse] }
  | .analysis =>
    let acc1 := if acc.searchResultsSet = false ∧ r.analyzedData.results ≠ [] then
        { acc with
          finalSearchResults := r.analyzedData
          resultType := "search_result"
          searchResultsSet := true }
      else acc
    { acc1 with combinedResponse := acc1.combinedResponse ++
        ["📊 **매물 분석 결과**\n\n" ++ r.analysisResponse] }
  | .wishlist =>
    let acc1 := if acc.searchResultsSet = false then
        (if r.wishlistData.results ≠ [] then
          { acc with
            finalSearchResults := r.wishlistData
            resultType := "search_result"
            searchResultsSet := true }
        else if r.wishlistSearchResults.results ≠ [] then
          { acc with
            finalSearchResults := r.wishlistSearchResults
            resultType := "search_result"
            searchResultsSet := true }
        else acc)
      else acc
    { acc1 with combinedResponse := acc1.combinedResponse ++
        ["❤️ **찜 목록**\n\n" ++ r.response] }
  | .chat =>
    { acc with combinedResponse := acc.combinedResponse ++ [r.response] }

/-- One step of the aggregation loop over a task (the
completed / failed / otherwise dispatch). -/
def combine_step (acc : CombineAcc) (t : CTask) : CombineAcc :=
  match t.result with
  | some r =>
    if t.status = "completed" then combine_branch acc t.taskType r
    else if t.status = "failed" then
      { acc with combinedResponse := acc.combinedResponse ++
          ["⚠️ " ++ task_type_value t.taskType ++ " 작업 중 오류가 발생했습니다: " ++ t.error] }
    else acc
  | none =>
    if t.status = "failed" then
      { acc with combinedResponse := acc.combinedResponse ++
          ["⚠️ " ++ task_type_value t.taskType ++ " 작업 중 오류가 발생했습니다: " ++ t.error] }
    else acc

/-- `completed_tasks.sort(key=lambda t: task_order.get(t.task_type, 5))`:
Python list sort is stable; `insertionSort` with `≤` on the order value is
the matching stable sort. -/
def combine_sorted (tasks : List CTask) : List CTask :=
  tasks.insertionSort fun a b => task_order a.taskType ≤ task_order b.taskType

/-- `_combine_results`: sort by capability precedence, then fold the
aggregation loop from the initial state
(`combined_response = []`, `final_search_results = {}`,
`result_type = "chat"`, `search_results_set = False`). -/
def combine_results (tasks : List CTask) : CombineAcc :=
  (combine_sorted tasks).foldl combine_step
    { combinedResponse := [], finalSearchResults := ⟨[]⟩, resultType := "chat",
      searchResultsSet := false }

/-- Spec-side description of which `search_results`-dict a task contributes
as a candidate listing-records payload ("produced a non-empty record list"),
per task type. -/
def spec_records_source (t : CTask) : Option SearchResults :=
  match t.result with
  | none => none
  | some r =>
    if t.status = "completed" then
      match t.taskType with
      | .search => if r.searchResults.results ≠ [] then some r.searchResults else none
      | .similaritySearch => if r.searchResults.results ≠ [] then some r.searchResults else none
      | .recommendation =>
        if r.recommendationData.results ≠ [] then some r.recommendationData else none
      | .comparison => if r.comparisonData.results ≠ [] then some r.comparisonData else none
      | .analysis => if r.analyzedData.results ≠ [] then some r.analyzedData else none
      | .wishlist =>
        if r.wishlistData.results ≠ [] then some r.wishlistData
        else if r.wishlistSearchResults.results ≠ [] then some r.wishlistSearchResults
        else none
      | .chat => none
    else none

/-- Spec-side "first producer wins": the payload of the first task, in
precedence order, that produced a non-empty record list (empty otherwise). -/
def spec_first_producer (tasks : List CTask) : SearchResults :=
  (((combine_sorted tasks).filterMap spec_records_source).head?).getD ⟨[]⟩

/-- Spec-side description of when a completed Search/Similarity-Search task
sets `result_type` on its own (non-empty record list or non-empty response
text). -/
def spec_search_like (t : CTask) : Bool :=
  match t.result with
  | some r =>
    decide (t.taskType = .search ∨ t.taskType = .similaritySearch) &&
      decide (t.status = "completed") &&
      (decide (r.searchResults.results ≠ []) || decide (r.response ≠ ""))
  | none => false

theorem combine_step_records_some {acc : CombineAcc} {t : CTask} {sr : SearchResults}
    (hset : acc.searchResultsSet = false) (h : spec_records_source t = some sr) :
    (combine_step acc t).finalSearchResults = sr ∧
    (combine_step acc t).searchResultsSet = true ∧
    (combine_step acc t).resultType = "search_result" := by
  obtain ⟨ty, status, result, err⟩ := t
  cases result with
  | none => simp [spec_records_source] at h
  | some r =>
    cases ty with
    | search =>
      simp only [spec_records_source] at h
      split_ifs at h with hst hne
      · injection h with h
        subst h
        simp [combine_step, combine_branch, hst, hset, hne]
    | similaritySearch =>
      simp only [spec_records_source] at h
      split_ifs at h with hst hne
      · injection h with h
        subst h
        simp [combine_step, combine_branch, hst, hset, hne]
    | recommendation =>
      simp only [spec_records_source] at h
      split_ifs at h with hst hne
      · injection h with h
        subst h
        simp [combine_step, combine_branch, hst, hset, hne]
    | comparison =>
      simp only [spec_records_source] at h
      split_ifs at h with hst hne
      · injection h with h
        subst h
        simp [combine_step, combine_branch, hst, hset, hne]
    | analysis =>
      simp only [spec_records_source] at h
      split_ifs at h with hst hne
      · injection h with h
        subst h
        simp [combine_step, combine_branch, hst, hset, hne]
    | wishlist =>
      simp only [spec_records_source] at h
      split_ifs at h with hst h1 h2
      · injection h with h
        subst h
        simp [combine_step, combine_branch, hst, hset, h1]
      · injection h with h
        subst h
        simp [combine_step, combine_branch, hst, hset, h1, h2]
    | chat =>
      simp only [spec_records_source] at h
      split_ifs at h

theorem combine_step_records_none {acc : CombineAcc} {t : CTask}
    (hset : acc.searchResultsSet = false) (h : spec_records_source t = none) :
    (combine_step acc t).finalSearchResults = acc.finalSearchResults ∧
    (combine_step acc t).searchResultsSet = false ∧
    (combine_step acc t).resultType =
      (if spec_search_like t then "search_result" else acc.resultType) := by
  obtain ⟨ty, status, result, err⟩ := t
  cases result with
  | none =>
    simp only [combine_step, spec_search_like]
    split_ifs <;> simp_all [hset]
  | some r =>
    cases ty with
    | search =>
      simp only [spec_records_source] at h
      split_ifs at h with hst hne
      · have hne2 : r.searchResults.results = [] := not_not.mp hne
        by_cases hresp : r.response = "" <;>
          simp [combine_step, combine_branch, spec_search_like, hst, hset, hne2, hresp]
      · by_cases hfail : status = "failed" <;>
          simp [combine_step, combine_branch, spec_search_like, hst, hset, hfail]
    | similaritySearch =>
      simp only [spec_records_source] at h
      split_ifs at h with hst hne
      · have hne2 : r.searchResults.results = [] := not_not.mp hne
        by_cases hresp : r.response = "" <;>
          simp [combine_step, combine_branch, spec_search_like, hst, hset, hne2, hresp]
      · by_cases hfail : status = "failed" <;>
          simp [combine_step, combine_branch, spec_search_like, hst, hset, hfail]
    | recommendation =>
      simp only [spec_records_source] at h
      split_ifs at h with hst hne
      · have hne2 := not_not.mp hne
        simp [combine_step, combine_branch, spec_search_like, hst, hset, hne2]
      · by_cases hfail : status = "failed" <;>
          simp [combine_step, combine_branch, spec_search_like, hst, hset, hfail]
    | comparison =>
      simp only [spec_records_source] at h
      split_ifs at h with hst hne
      · have hne2 := not_not.mp hne
        simp [combine_step, combine_branch, spec_search_like, hst, hset, hne2]
      · by_cases hfail : status = "failed" <;>
          simp [combine_step, combine_branch, spec_search_like, hst, hset, hfail]
    | analysis =>
      simp only [spec_records_source] at h
      split_ifs at h with hst hne
      · have hne2 := not_not.mp hne
        simp [combine_step, combine_branch, spec_search_like, hst, hset, hne2]
      · by_cases hfail : status = "failed" <;>
          simp [combine_step, combine_branch, spec_search_like, hst, hset, hfail]
    | wishlist =>
      simp only [spec_records_source] at h
      split_ifs at h with hst h1 h2
      · have h1b := not_not.mp h1
        have h2b := not_not.mp h2
        simp [combine_step, combine_branch, spec_search_like, hst, hset, h1b, h2b]
      · by_cases hfail : status = "failed" <;>
          simp [combine_step, combine_branch, spec_search_like, hst, hset, hfail]
    | chat =>
      by_cases hst : status = "completed"
      · simp [combine_step, combine_branch, spec_search_like, hst, hset]
      · by_cases hfail : status = "failed" <;>
          simp [combine_step, combine_branch, spec_search_like, hst, hset, hfail]

theorem combine_step_set {acc : CombineAcc} (t : CTask)
    (hset : acc.searchResultsSet = true) :
    (combine_step acc t).finalSearchResults = acc.finalSearchResults ∧
    (combine_step acc t).searchResultsSet = true ∧
    (combine_step acc t).resultType =
      (if spec_search_like t then "search_result" else acc.resultType) := by
  obtain ⟨ty, status, result, err⟩ := t
  cases result with
  | none =>
    simp only [combine_step, spec_search_like]
    split_ifs <;> simp_all [hset]
  | some r =>
    by_cases hst : status = "completed"
    case neg =>
      by_cases hfail : status = "failed" <;>
        cases ty <;>
          simp [combine_step, combine_branch, spec_search_like, hst, hset, hfail]
    case pos =>
      cases ty with
      | search =>
        by_cases hne : r.searchResults.results = [] <;>
          by_cases hresp : r.response = "" <;>
            simp [combine_step, combine_branch, spec_search_like, hst, hset, hne, hresp]
      | similaritySearch =>
        by_cases hne : r.searchResults.results = [] <;>
          by_cases hresp : r.response = "" <;>
            simp [combine_step, combine_branch, spec_search_like, hst, hset, hne, hresp]
      | recommendation =>
        simp [combine_step, combine_branch, spec_search_like, hst, hset]
      | comparison =>
        simp [combine_step, combine_branch, spec_search_like, hst, hset]
      | analysis =>
        simp [combine_step, combine_branch, spec_search_like, hst, hset]
      | wishlist =>
        simp [combine_step, combine_branch, spec_search_like, hst, hset]
      | chat =>
        simp [combine_step, combine_branch, spec_search_like, hst, hset]

theorem combine_fold_set :
    ∀ (l : List CTask) (acc : CombineAcc), acc.searchResultsSet = true →
      (l.foldl combine_step acc).finalSearchResults = acc.finalSearchResults ∧
      ((l.foldl combine_step acc).resultType = "search_result" ↔
        acc.resultType = "search_result" ∨ ∃ t ∈ l, spec_search_like t = true) := by
  intro l
  induction l with
  | nil => intro acc _; simp
  | cons t ts ih =>
    intro acc hset
    obtain ⟨h1, h2, h3⟩ := combine_step_set t hset
    obtain ⟨ih1, ih2⟩ := ih (combine_step acc t) h2
    constructor
    · rw [List.foldl_cons, ih1, h1]
    · rw [List.foldl_cons, ih2, h3]
      by_cases hlike : spec_search_like t = true <;>
        simp [hlike]

theorem combine_fold_notset :
    ∀ (l : List CTask) (acc : CombineAcc), acc.searchResultsSet = false →
      (l.foldl combine_step acc).finalSearchResults =
        ((l.filterMap spec_records_source).head?).getD acc.finalSearchResults ∧
      ((l.foldl combine_step acc).resultType = "search_result" ↔
        acc.resultType = "search_result" ∨ (∃ t ∈ l, spec_search_like t = true) ∨
        ∃ t, l.find? (fun u => (spec_records_source u).isSome) = some t ∧
          spec_search_like t = false) := by
  intro l
  induction l with
  | nil => intro acc _; simp
  | cons t ts ih =>
    intro acc hset
    cases hrec : spec_records_source t with
    | some sr0 =>
      obtain ⟨h1, h2, h3⟩ := combine_step_records_some hset hrec
      obtain ⟨f1, f2⟩ := combine_fold_set ts (combine_step acc t) h2
      have hfind : (t :: ts).find? (fun u => (spec_records_source u).isSome) = some t :=
        List.find?_cons_of_pos _ (by simp [hrec])
      constructor
      · rw [List.foldl_cons, f1, h1]
        simp [List.filterMap_cons, hrec]
      · rw [List.foldl_cons, f2, h3]
        constructor
        · intro _
          by_cases hlike : spec_search_like t = true
          · exact Or.inr (Or.inl ⟨t, List.mem_cons_self t ts, hlike⟩)
          · exact Or.inr (Or.inr ⟨t, hfind, Bool.eq_false_iff.mpr hlike⟩)
        · intro _
          exact Or.inl rfl
    | none =>
      obtain ⟨h1, h2, h3⟩ := combine_step_records_none hset hrec
      obtain ⟨ih1, ih2⟩ := ih (combine_step acc t) h2
      have hfind : (t :: ts).find? (fun u => (spec_records_source u).isSome) =
          ts.find? (fun u => (spec_records_source u).isSome) :=
        List.find?_cons_of_neg _ (by simp [hrec])
      have hlikeFalse : spec_search_like t = true → (combine_step acc t).resultType =
          "search_result" := by
        intro hl
        rw [h3, if_pos hl]
      constructor
      · rw [List.foldl_cons, ih1, h1]
        simp [List.filterMap_cons, hrec]
      · rw [List.foldl_cons, ih2, h3, hfind]
        by_cases hlike : spec_search_like t = true <;> simp [hlike]

theorem combine_step_resultType_cases (acc : CombineAcc) (t : CTask) :
    (combine_step acc t).resultType = acc.resultType ∨
    (combine_step acc t).resultType = "search_result" := by
  cases hset : acc.searchResultsSet with
  | true =>
    obtain ⟨_, _, h3⟩ := combine_step_set t hset
    rw [h3]
    split_ifs <;> simp
  | false =>
    cases hrec : spec_records_source t with
    | some sr =>
      obtain ⟨_, _, h3⟩ := combine_step_records_some hset hrec
      exact Or.inr h3
    | none =>
      obtain ⟨_, _, h3⟩ := combine_step_records_none hset hrec
      rw [h3]
      split_ifs <;> simp

theorem combine_fold_resultType_cases :
    ∀ (l : List CTask) (acc : CombineAcc),
      (l.foldl combine_step acc).resultType = acc.resultType ∨
      (l.foldl combine_step acc).resultType = "search_result" := by
  intro l
  induction l with
  | nil => intro acc; exact Or.inl rfl
  | cons t ts ih =>
    intro acc
    rw [List.foldl_cons]
    rcases ih (combine_step acc t) with h | h
    · rw [h]
      exact combine_step_resultType_cases acc t
    · exact Or.inr h

/-- A completed Search task carrying records `[1, 2]`. -/
def searchTaskAB : CTask :=
  { taskType := .search
    status := "completed"
    result := some { searchResults := ⟨[1, 2]⟩, response := "검색 결과" }
    error := "" }

/-- A completed Recommendation task carrying records `[1]`. -/
def recommendationTaskA : CTask :=
  { taskType := .recommendation
    status := "completed"
    result := some { recommendationResponse := "추천", recommendationData := ⟨[1]⟩ }
    error := "" }

/-- A completed Search task with an empty record list and a non-empty
response. -/
def searchTaskNoRecords : CTask :=
  { taskType := .search
    status := "completed"
    result := some { response := "조건에 맞는 매물이 없습니다." }
    error := "" }

/-- C7.  `_combine_results` sets the listing-records payload from the first
completed task in capability-precedence order whose result carries a
non-empty record list; later record lists never merge into or replace it.
In particular completed Search records `[1, 2]` followed by Recommendation
records `[1]` yield `[1, 2]`. -/
theorem combine_first_producer_wins :
    (∀ tasks : List CTask,
      (combine_results tasks).finalSearchResults = spec_first_producer tasks) ∧
    (combine_results [searchTaskAB, recommendationTaskA]).finalSearchResults =
      ⟨[1, 2]⟩ := by
  constructor
  · intro tasks
    exact (combine_fold_notset (combine_sorted tasks) _ rfl).1
  · rfl

/-- C8 counterexample.  The claim says `result_kind` is `search_result` only
when some non-empty record list was set as the payload.  A single completed
Search task with an empty record list but a non-empty response yields
`result_type = "search_result"` while no record list was set. -/
theorem combine_result_type_response_cx :
    (combine_results [searchTaskNoRecords]).resultType = "search_result" ∧
    (combine_results [searchTaskNoRecords]).finalSearchResults = ⟨[]⟩ ∧
    (combine_results [searchTaskNoRecords]).searchResultsSet = false :=
  ⟨rfl, rfl, rfl⟩

/-- C8 (amended).  `result_kind` is `search_result` iff some completed
Search/Similarity-Search task produced a non-empty record list or a
non-empty response text, or the first record-producing task in precedence
order is a Recommendation/Comparison/Analysis/Wishlist task (which then set
the payload); in every other case it is `chat`. -/
theorem combine_result_type_iff (tasks : List CTask) :
    ((combine_results tasks).resultType = "search_result" ↔
      (∃ t ∈ tasks, spec_search_like t = true) ∨
      ∃ t, (combine_sorted tasks).find? (fun u => (spec_records_source u).isSome) = some t ∧
        spec_search_like t = false) ∧
    ((combine_results tasks).resultType = "search_result" ∨
      (combine_results tasks).resultType = "chat") := by
  obtain ⟨_, hiff⟩ := combine_fold_notset (combine_sorted tasks)
    { combinedResponse := [], finalSearchResults := ⟨[]⟩, resultType := "chat",
      searchResultsSet := false } rfl
  constructor
  · rw [show (combine_results tasks).resultType =
      ((combine_sorted tasks).foldl combine_step
        { combinedResponse := [], finalSearchResults := ⟨[]⟩, resultType := "chat",
          searchResultsSet := false }).resultType from rfl, hiff]
    have hmem : ∀ t : CTask, t ∈ combine_sorted tasks ↔ t ∈ tasks := fun t =>
      (List.perm_insertionSort _ tasks).mem_iff
    have hchat : ("chat" : String) ≠ "search_result" := by decide
    constructor
    · rintro (hc | hx | hy)
      · exact absurd hc hchat
      · obtain ⟨t, htm, htl⟩ := hx
        exact Or.inl ⟨t, (hmem t).mp htm, htl⟩
      · exact Or.inr hy
    · rintro (hx | hy)
      · obtain ⟨t, htm, htl⟩ := hx
        exact Or.inr (Or.inl ⟨t, (hmem t).mpr htm, htl⟩)
      · exact Or.inr (Or.inr hy)
  · rcases combine_fold_resultType_cases (combine_sorted tasks)
      { combinedResponse := [], finalSearchResults := ⟨[]⟩, resultType := "chat",
        searchResultsSet := false } with h | h
    · exact Or.inr h
    · exact Or.inl h

/-! ## Reference resolution (`resolve_references`, utils.py lines 278-348)

The regex layer is modelled on a whitespace-tokenized utterance: `Tok.loc s`
is a token matched by `[가-힣]+(동|역|구)`, `Tok.num n` a token matched by
`[0-9]+번`, and `Tok.other` any other word (which breaks the adjacency the
first pattern requires).  History entries carry the `location` extracted from
the stored query and the stored record list (record identifiers). -/

inductive Tok
  | loc (s : String)
  | num (n : Nat)
  | other
deriving DecidableEq, Repr

def isNumTok : Tok → Bool
  | .num _ => true
  | _ => false

def numVal : Tok → Option Nat
  | .num n => some n
  | _ => none

def locVal : Tok → Option String
  | .loc s => some s
  | _ => none

structure HistEntry where
  location : Option String
  results : List Nat
deriving DecidableEq, Repr

/-- `re.findall(r'([가-힣]+(?:동|역|구))((?:\s*[0-9]+번)+)', query)`: each
location token followed immediately by one or more ordinal tokens, in
textual order.  (The regex scanner resumes after the consumed ordinals;
recursing on `rest` instead is equivalent because the `.num` branch skips
the just-consumed ordinal tokens, which cannot begin a group.) -/
def loc_num_groups : List Tok → List (String × List Nat)
  | [] => []
  | .loc s :: rest =>
    let nums := rest.takeWhile isNumTok
    if nums.isEmpty then loc_num_groups rest
    else (s, nums.filterMap numVal) :: loc_num_groups rest
  | .num _ :: rest => loc_num_groups rest
  | .other :: rest => loc_num_groups rest

/-- `re.findall(r'([가-힣]+(?:동|역|구))', query)`. -/
def loc_list (q : List Tok) : List String :=
  q.filterMap locVal

/-- `re.findall(r'(?<![가-힣])([0-9]+)번', query)` (on whitespace-separated
tokens the look-behind is vacuous). -/
def num_list (q : List Tok) : List Nat :=
  q.filterMap numVal

/-- `for entry in reversed(history): if entry.get("location") == loc: …
break` — the most recent entry whose location matches. -/
def find_entry (history : List HistEntry) (loc : String) : Option HistEntry :=
  history.reverse.find? fun e => e.location = some loc

/-- `idx = int(num) - 1; if 0 <= idx < len(props): references.append(props[idx])`:
the record at the 1-based ordinal, or nothing when out of range. -/
def pick_record (props : List Nat) (n : Nat) : Option Nat :=
  if n = 0 then none else props.get? (n - 1)

/-- Resolution of one (location, ordinal) pair: look up the most recent
matching entry (the loop `break`s there even on an out-of-range ordinal). -/
def resolve_loc_group (history : List HistEntry) (loc : String) (n : Nat) : List Nat :=
  match find_entry history loc with
  | none => []
  | some e => (pick_record e.results n).toList

/-- `resolve_references` over the tokenized utterance.  `none` models the
fall-through `return None` of the Python function. -/
def resolve_references (q : List Tok) (history : List HistEntry) : Option (List Nat) :=
  let groups := loc_num_groups q
  let locs := loc_list q
  let nums := num_list q
  if groups ≠ [] then
    let used := (groups.map Prod.snd).flatten
    let groupRefs := groups.foldl
      (fun acc g => acc ++ g.2.foldl (fun a n => a ++ resolve_loc_group history g.1 n) []) []
    let extra := nums.foldl
      (fun acc n =>
        if n ∈ used then acc
        else acc ++ (match history.getLast? with
          | some e => (pick_record e.results n).toList
          | none => [])) []
    some (groupRefs ++ extra)
  else if locs ≠ [] ∧ nums ≠ [] ∧ locs.length = nums.length then
    some ((locs.zip nums).foldl (fun acc p => acc ++ resolve_loc_group history p.1 p.2) [])
  else if locs ≠ [] ∧ nums ≠ [] ∧ nums.length = 1 ∧ locs.length > 1 then
    some (locs.foldl (fun acc l => acc ++ resolve_loc_group history l (nums.headD 0)) [])
  else if locs = [] ∧ nums ≠ [] then
    some (nums.foldl
      (fun acc n => acc ++ (match history.getLast? with
        | some e => (pick_record e.results n).toList
        | none => [])) [])
  else none

/-! ### Properties of reference resolution -/

theorem foldl_append_map {α β : Type} (f : α → List β) :
    ∀ (l : List α) (acc : List β),
      l.foldl (fun a x => a ++ f x) acc = acc ++ (l.map f).flatten := by
  intro l
  induction l with
  | nil => intro acc; simp
  | cons x xs ih => intro acc; simp [ih]

theorem flatten_map_toList {α : Type} (f : α → Option α) (ns : List α) :
    (ns.map fun n => (f n).toList).flatten = ns.filterMap f := by
  induction ns with
  | nil => rfl
  | cons n ns ih => cases hf : f n <;> simp [hf, ih]

theorem filterMap_numVal_map_num (ns : List Nat) : (ns.map Tok.num).filterMap numVal = ns := by
  induction ns with
  | nil => rfl
  | cons n ns ih => simp [numVal, ih]

theorem loc_list_map_num (ns : List Nat) : loc_list (ns.map Tok.num) = [] := by
  induction ns with
  | nil => rfl
  | cons n ns ih => simp [loc_list, locVal] at ih ⊢

theorem loc_num_groups_nums (ns : List Nat) : loc_num_groups (ns.map Tok.num) = [] := by
  induction ns with
  | nil => rfl
  | cons n ns ih => rw [List.map_cons, loc_num_groups]; exact ih

theorem loc_num_groups_skip_nums (ns : List Nat) (rest : List Tok) :
    loc_num_groups (ns.map Tok.num ++ rest) = loc_num_groups rest := by
  induction ns with
  | nil => rfl
  | cons n ns ih => rw [List.map_cons, List.cons_append, loc_num_groups]; exact ih

/-- Rendering of location+ordinal groups back into a token sequence. -/
def tokens_of_groups (gs : List (String × List Nat)) : List Tok :=
  (gs.map fun g => Tok.loc g.1 :: g.2.map Tok.num).flatten

theorem takeWhile_tokens_of_groups (gs : List (String × List Nat)) :
    (tokens_of_groups gs).takeWhile isNumTok = [] := by
  cases gs with
  | nil => rfl
  | cons g gs => simp [tokens_of_groups, List.takeWhile_cons, isNumTok]

theorem loc_num_groups_tokens :
    ∀ gs : List (String × List Nat), (∀ g ∈ gs, g.2 ≠ []) →
      loc_num_groups (tokens_of_groups gs) = gs := by
  intro gs
  induction gs with
  | nil => intro _; rfl
  | cons g gs ih =>
    intro h
    have hg : g.2 ≠ [] := h g (List.mem_cons_self g gs)
    have htail : ∀ x ∈ gs, x.2 ≠ [] := fun x hx => h x (List.mem_cons_of_mem g hx)
    have htok : tokens_of_groups (g :: gs) =
        Tok.loc g.1 :: (g.2.map Tok.num ++ tokens_of_groups gs) := by
      simp [tokens_of_groups]
    rw [htok, loc_num_groups]
    have htake : (g.2.map Tok.num ++ tokens_of_groups gs).takeWhile isNumTok =
        g.2.map Tok.num ++ (tokens_of_groups gs).takeWhile isNumTok :=
      List.takeWhile_append_of_pos (by intro x hx; obtain ⟨n, _, rfl⟩ := List.mem_map.mp hx; rfl)
    simp only [htake, takeWhile_tokens_of_groups, List.append_nil]
    have hnonempty : (g.2.map Tok.num).isEmpty = false := by
      cases hg2 : g.2 with
      | nil => exact absurd hg2 hg
      | cons a l => simp [hg2]
    rw [if_neg (by simp [hnonempty])]
    rw [filterMap_numVal_map_num, loc_num_groups_skip_nums, ih htail]

theorem num_list_tokens_of_groups :
    ∀ gs : List (String × List Nat),
      num_list (tokens_of_groups gs) = (gs.map Prod.snd).flatten := by
  intro gs
  induction gs with
  | nil => rfl
  | cons g gs ih =>
    have htok : tokens_of_groups (g :: gs) =
        Tok.loc g.1 :: (g.2.map Tok.num ++ tokens_of_groups gs) := by
      simp [tokens_of_groups]
    rw [show num_list (tokens_of_groups (g :: gs)) =
      (tokens_of_groups (g :: gs)).filterMap numVal from rfl, htok]
    rw [List.filterMap_cons, List.filterMap_append, filterMap_numVal_map_num]
    simp only [numVal]
    rw [show (tokens_of_groups gs).filterMap numVal = num_list (tokens_of_groups gs) from rfl, ih]
    simp

theorem extra_fold_nil {used : List Nat} (f : Nat → List Nat) :
    ∀ ns : List Nat, (∀ n ∈ ns, n ∈ used) →
      ns.foldl (fun acc n => if n ∈ used then acc else acc ++ f n) [] = [] := by
  intro ns
  induction ns with
  | nil => intro _; rfl
  | cons n ns ih =>
    intro h
    simp only [List.foldl_cons, if_pos (h n (List.mem_cons_self n ns))]
    exact ih fun m hm => h m (List.mem_cons_of_mem n hm)

/-- C6.  Reference resolution: bare ordinals (no location token) index the
single most recent history entry, 1-based, with out-of-range ordinals
skipped; location+ordinal groups each resolve against the most recent entry
whose location matches, independently, concatenated in textual order; and
the spec example `서초구 1번 방배동 2번` over history
`[방배동 ↦ [10, 11], 서초구 ↦ [1, 2, 3]]` yields `[1, 11]`. -/
theorem resolve_references_ordinal_location :
    (∀ (history : List HistEntry) (e : HistEntry) (ns : List Nat),
      history.getLast? = some e → ns ≠ [] →
      resolve_references (ns.map Tok.num) history =
        some (ns.filterMap (pick_record e.results))) ∧
    (∀ (history : List HistEntry) (gs : List (String × List Nat)), gs ≠ [] →
      (∀ g ∈ gs, g.2 ≠ []) →
      resolve_references (tokens_of_groups gs) history =
        some ((gs.map fun g => (g.2.map (resolve_loc_group history g.1)).flatten).flatten)) ∧
    resolve_references [Tok.loc "서초구", Tok.num 1, Tok.loc "방배동", Tok.num 2]
      [⟨some "방배동", [10, 11]⟩, ⟨some "서초구", [1, 2, 3]⟩] = some [1, 11] := by
  refine ⟨?_, ?_, ?_⟩
  · intro history e ns hlast hne
    have h1 : loc_num_groups (ns.map Tok.num) = [] := loc_num_groups_nums ns
    have h2 : loc_list (ns.map Tok.num) = [] := loc_list_map_num ns
    have h3 : num_list (ns.map Tok.num) = ns := filterMap_numVal_map_num ns
    simp only [resolve_references, h1, h2, h3, hlast]
    rw [if_neg (by simp)]
    rw [if_neg (by simp)]
    rw [if_neg (by simp)]
    rw [if_pos ⟨trivial, hne⟩]
    rw [foldl_append_map (fun n => (pick_record e.results n).toList) ns []]
    rw [flatten_map_toList]
    simp
  · intro history gs hne hgne
    have hparse := loc_num_groups_tokens gs hgne
    have hnums := num_list_tokens_of_groups gs
    simp only [resolve_references, hparse, hnums]
    rw [if_pos hne]
    have hfun : (fun (acc : List Nat) (g : String × List Nat) =>
        acc ++ g.2.foldl (fun a n => a ++ resolve_loc_group history g.1 n) []) =
        fun acc g => acc ++ (g.2.map (resolve_loc_group history g.1)).flatten := by
      funext acc g
      rw [foldl_append_map (resolve_loc_group history g.1) g.2 []]
      simp
    rw [hfun]
    rw [foldl_append_map
      (fun g : String × List Nat => (g.2.map (resolve_loc_group history g.1)).flatten) gs []]
    rw [extra_fold_nil _ _ fun n hn => hn]
    simp
  · rfl

/-- Witness for C6: the bare-ordinal clause at history `[[7, 8, 9]]` with
ordinals `[2, 5]` (5 out of range, skipped), giving `[8]`. -/
theorem resolve_references_ordinal_location_witness :
    (([(⟨none, [7, 8, 9]⟩ : HistEntry)].getLast? = some ⟨none, [7, 8, 9]⟩ ∧
      ([2, 5] : List Nat) ≠ []) ∧
    resolve_references ([2, 5].map Tok.num) [⟨none, [7, 8, 9]⟩] =
      some ([2, 5].filterMap (pick_record [7, 8, 9]))) ∧
    ([2, 5].filterMap (pick_record [7, 8, 9]) = [8]) := by
  refine ⟨⟨⟨rfl, by decide⟩, ?_⟩, by decide⟩
  exact resolve_references_ordinal_location.1 [⟨none, [7, 8, 9]⟩] ⟨none, [7, 8, 9]⟩ [2, 5]
    rfl (by decide)

/-! ## Hybrid retrieval engine (`search_agent.py`)

The two store passes are external calls: each either raises (caught, giving
an empty contribution) or returns a list of documents.  Scores use `ℚ` in
place of Python floats.  A document carries its Mongo `_id` and the metadata
fields the engine reads back (`nearest_station`, `distance_to_station`). -/

structure Doc where
  docId : Nat
  nearestStation : Option String
  distanceToStation : Option ℚ
deriving DecidableEq, Repr

/-- The module constants of `search_agent.py` (lines 47-52). -/
def TEXT_WEIGHT : ℚ := 7 / 10

def VECTOR_WEIGHT : ℚ := 3 / 10

def RANK_CONSTANT : ℚ := 60

/-- The structured filters produced by `parse_query` that the engine itself
reads back (location fields for the `has_location` guard, the transit fields
for the final post-filter). -/
structure SearchParams where
  gu : Option String
  dong : Option String
  requireRent : Option String
  depMax : Option Int
  monMax : Option Int
  requireSubway : Bool
  maxDist : ℚ
  stationName : Option String
deriving DecidableEq, Repr

/-- `np.zeros(1536)`. -/
def zero_vector : List ℚ := List.replicate 1536 0

/-- `get_embedding` (lines 205-219): return the first successful attempt,
and the zero vector after every retry failed. -/
def get_embedding (attempts : List (Option (List ℚ))) : List ℚ :=
  match attempts.findSome? id with
  | some v => v
  | none => zero_vector

/-- `try: … except: results = []` around each store pass. -/
def pass_docs : Except Unit (List Doc) → List Doc
  | .ok l => l
  | .error _ => []

/-- The RRF accumulation loop
`for i, doc in enumerate(pass): ranked[doc._id] += W * (1 / (K + i + 1))`,
as a recursion carrying the running index. -/
def pass_score_aux (w : ℚ) (tid : Nat) : List Nat → Nat → ℚ
  | [], _ => 0
  | x :: xs, i =>
    (if x = tid then w * (1 / (RANK_CONSTANT + ((i : ℚ) + 1))) else 0) +
      pass_score_aux w tid xs (i + 1)

/-- The fused `ranked_results[id]` value: text-pass plus vector-pass
contributions. -/
def rrf_score (textIds vecIds : List Nat) (tid : Nat) : ℚ :=
  pass_score_aux TEXT_WEIGHT tid textIds 0 + pass_score_aux VECTOR_WEIGHT tid vecIds 0

/-- `defaultdict` key insertion: first occurrence fixes the position. -/
def insert_key (acc : List Nat) (id : Nat) : List Nat :=
  if id ∈ acc then acc else acc ++ [id]

/-- The keys of `ranked_results`, in insertion order (text pass first). -/
def candidate_ids (textIds vecIds : List Nat) : List Nat :=
  (textIds ++ vecIds).foldl insert_key []

/-- `sorted(ranked_results.keys(), key=lambda id: ranked_results[id],
reverse=True)`: stable descending sort by fused score. -/
def sort_desc (score : Nat → ℚ) (ids : List Nat) : List Nat :=
  ids.insertionSort fun a b => score b ≤ score a

/-- `collection.find({"_id": {"$in": top_k_ids}})` followed by
`final_results.sort(key=lambda doc: top_k_ids.index(doc["_id"]))`. -/
def materialize (collection : List Doc) (ids : List Nat) : List Doc :=
  (collection.filter fun d => d.docId ∈ ids).insertionSort
    fun a b => ids.indexOf a.docId ≤ ids.indexOf b.docId

/-- The exact transit post-filter (lines 492-497), applied only when a
subway search with a station name was requested; a missing
`distance_to_station` reads as infinity and never passes. -/
def subway_post_filter (params : SearchParams) (docs : List Doc) : List Doc :=
  if params.requireSubway ∧ params.stationName.isSome then
    docs.filter fun d =>
      decide (d.nearestStation = params.stationName) &&
        match d.distanceToStation with
        | some x => decide (x ≤ params.maxDist)
        | none => false
  else docs

structure HybridResult where
  results : List (Nat × Doc)
  message : String
deriving DecidableEq, Repr

/-- `{"results": [], "message": "조건에 맞는 매물을 찾지 못했습니다."}`. -/
def no_match_result : HybridResult :=
  { results := [], message := "조건에 맞는 매물을 찾지 못했습니다." }

/-- Steps 5-7 of `hybrid_search` after the fusion map is built: sort by
fused score, take the top `top_k`, re-materialize from the store, apply the
transit post-filter. -/
def fused_candidate_docs (params : SearchParams)
    (textOutcome vecOutcome : Except Unit (List Doc)) (collection : List Doc)
    (top_k : Nat) : List Doc :=
  let textIds := (pass_docs textOutcome).map Doc.docId
  let vecIds := (pass_docs vecOutcome).map Doc.docId
  subway_post_filter params
    (materialize collection
      ((sort_desc (rrf_score textIds vecIds) (candidate_ids textIds vecIds)).take top_k))

/-- `SearchAgent.hybrid_search` (lines 389-514): fuse the two passes with
RRF; an empty fusion map or an empty post-filtered record list yield the
no-match dict, otherwise the records are returned with `rank = position + 1`. -/
def hybrid_search (params : SearchParams)
    (textOutcome vecOutcome : Except Unit (List Doc)) (collection : List Doc)
    (top_k : Nat) : HybridResult :=
  let textIds := (pass_docs textOutcome).map Doc.docId
  let vecIds := (pass_docs vecOutcome).map Doc.docId
  if (candidate_ids textIds vecIds).isEmpty then no_match_result
  else
    let final_filtered := fused_candidate_docs params textOutcome vecOutcome collection top_k
    if final_filtered.isEmpty then no_match_result
    else
      { results := final_filtered.enum.map fun p => (p.1 + 1, p.2)
        message := "총 " ++ toString final_filtered.length ++ "개의 매물을 찾았습니다." }

/-- Outcome of `search_properties`: either the predefined location
re-question dict (`requires_location`) or a hybrid-search result. -/
inductive SearchOutcome
  | locationRequest
  | hybrid (r : HybridResult)
deriving DecidableEq, Repr

/-- `bool(params.get("gu") or params.get("dong") or params.get("station_name"))`. -/
def has_location (params : SearchParams) : Bool :=
  params.gu.isSome || params.dong.isSome || params.stationName.isSome

/-- `SearchAgent.search_properties` (lines 141-159): without a location the
engine is never invoked. -/
def search_properties (params : SearchParams)
    (textOutcome vecOutcome : Except Unit (List Doc)) (collection : List Doc)
    (top_k : Nat) : SearchOutcome :=
  if has_location params then
    .hybrid (hybrid_search params textOutcome vecOutcome collection top_k)
  else .locationRequest

/-! ### Reciprocal rank fusion: score formula and ordering -/

theorem pass_score_aux_eq (w : ℚ) (tid : Nat) :
    ∀ (ids : List Nat) (i : Nat), ids.Nodup →
      pass_score_aux w tid ids i =
        if tid ∈ ids then
          w * (1 / (RANK_CONSTANT + ((i : ℚ) + (ids.indexOf tid : ℚ) + 1)))
        else 0 := by
  intro ids
  induction ids with
  | nil => intro i _; simp [pass_score_aux]
  | cons x xs ih =>
    intro i hnd
    obtain ⟨hx, hxs⟩ := List.nodup_cons.mp hnd
    rw [pass_score_aux]
    by_cases hxt : x = tid
    · subst hxt
      have hnot : x ∉ xs := hx
      rw [if_pos rfl, ih (i + 1) hxs, if_neg hnot,
        if_pos (List.mem_cons_self x xs), List.indexOf_cons_self]
      push_cast
      ring_nf
    · rw [if_neg hxt, ih (i + 1) hxs]
      have hmem : tid ∈ x :: xs ↔ tid ∈ xs := by
        constructor
        · intro hc
          rcases List.mem_cons.mp hc with h | h
          · exact absurd h.symm hxt
          · exact h
        · exact fun h => List.mem_cons_of_mem x h
      have hidx : (x :: xs).indexOf tid = xs.indexOf tid + 1 :=
        List.indexOf_cons_ne xs hxt
      by_cases ht : tid ∈ xs
      · rw [if_pos ht, if_pos (hmem.mpr ht), hidx]
        push_cast
        ring_nf
      · rw [if_neg ht, if_neg (fun hc => ht (hmem.mp hc))]
        simp

/-- The fused score follows the spec formula: `0.7 × 1/(60 + r)` from the
lexical pass plus `0.3 × 1/(60 + r)` from the vector pass, `r` the 1-based
rank, a pass not containing the listing contributing `0`. -/
theorem rrf_score_formula (textIds vecIds : List Nat) (tid : Nat)
    (ht : textIds.Nodup) (hv : vecIds.Nodup) :
    rrf_score textIds vecIds tid =
      (if tid ∈ textIds then
        (7 / 10 : ℚ) * (1 / (60 + ((textIds.indexOf tid : ℚ) + 1))) else 0) +
      (if tid ∈ vecIds then
        (3 / 10 : ℚ) * (1 / (60 + ((vecIds.indexOf tid : ℚ) + 1))) else 0) := by
  rw [rrf_score, pass_score_aux_eq TEXT_WEIGHT tid textIds 0 ht,
    pass_score_aux_eq VECTOR_WEIGHT tid vecIds 0 hv]
  rw [TEXT_WEIGHT, VECTOR_WEIGHT, RANK_CONSTANT]
  push_cast
  ring_nf

theorem sort_desc_sorted (score : Nat → ℚ) (ids : List Nat) :
    (sort_desc score ids).Sorted fun a b => score b ≤ score a :=
  @List.sorted_insertionSort Nat (fun a b => score b ≤ score a)
    (fun a b => inferInstanceAs (Decidable (score b ≤ score a)))
    ⟨fun a b => le_total (score b) (score a)⟩
    ⟨fun _ _ _ hab hbc => le_trans hbc hab⟩ ids

theorem sorted_score_of_indexOf_le {score : Nat → ℚ} {ids : List Nat}
    (h : ids.Sorted fun a b => score b ≤ score a) {a b : Nat}
    (ha : a ∈ ids) (hb : b ∈ ids) (hle : ids.indexOf a ≤ ids.indexOf b) :
    score b ≤ score a := by
  have halt := List.indexOf_lt_length.mpr ha
  have hblt := List.indexOf_lt_length.mpr hb
  have hrel := @List.Sorted.rel_get_of_le Nat (fun a b => score b ≤ score a)
    ⟨fun x => le_refl (score x)⟩ ids h ⟨ids.indexOf a, halt⟩ ⟨ids.indexOf b, hblt⟩ hle
  rwa [List.indexOf_get halt, List.indexOf_get hblt] at hrel

theorem materialize_mem_ids (collection : List Doc) (ids : List Nat) :
    ∀ d ∈ materialize collection ids, d.docId ∈ ids := by
  intro d hd
  have hmem : d ∈ collection.filter fun d => d.docId ∈ ids :=
    (List.perm_insertionSort _ _).subset hd
  have := (List.mem_filter.mp hmem).2
  exact of_decide_eq_true this

theorem materialize_sorted (collection : List Doc) (ids : List Nat) :
    (materialize collection ids).Sorted
      fun a b => ids.indexOf a.docId ≤ ids.indexOf b.docId :=
  @List.sorted_insertionSort Doc (fun a b => ids.indexOf a.docId ≤ ids.indexOf b.docId)
    (fun a b => inferInstanceAs (Decidable (ids.indexOf a.docId ≤ ids.indexOf b.docId)))
    ⟨fun a b => Nat.le_total (ids.indexOf a.docId) (ids.indexOf b.docId)⟩
    ⟨fun _ _ _ hab hbc => le_trans hab hbc⟩ _

theorem materialize_score_pairwise (score : Nat → ℚ) {ids : List Nat}
    (collection : List Doc) (h : ids.Sorted fun a b => score b ≤ score a) :
    (materialize collection ids).Pairwise
      fun a b => score b.docId ≤ score a.docId :=
  List.Pairwise.imp_of_mem
    (fun ha hb hr => sorted_score_of_indexOf_le h
      (materialize_mem_ids collection ids _ ha) (materialize_mem_ids collection ids _ hb) hr)
    (materialize_sorted collection ids)

theorem subway_post_filter_sublist (params : SearchParams) (docs : List Doc) :
    List.Sublist (subway_post_filter params docs) docs := by
  rw [subway_post_filter]
  split
  · exact List.filter_sublist docs
  · exact List.Sublist.refl docs

theorem fused_candidate_docs_pairwise (params : SearchParams)
    (textOutcome vecOutcome : Except Unit (List Doc)) (collection : List Doc)
    (top_k : Nat) :
    (fused_candidate_docs params textOutcome vecOutcome collection top_k).Pairwise
      fun a b =>
        rrf_score ((pass_docs textOutcome).map Doc.docId)
            ((pass_docs vecOutcome).map Doc.docId) b.docId ≤
          rrf_score ((pass_docs textOutcome).map Doc.docId)
            ((pass_docs vecOutcome).map Doc.docId) a.docId := by
  set score := rrf_score ((pass_docs textOutcome).map Doc.docId)
    ((pass_docs vecOutcome).map Doc.docId) with hscore
  have hsorted : (((sort_desc score (candidate_ids ((pass_docs textOutcome).map Doc.docId)
      ((pass_docs vecOutcome).map Doc.docId))).take top_k)).Sorted
      fun a b => score b ≤ score a :=
    (sort_desc_sorted score _).sublist (List.take_sublist top_k _)
  have hmat := materialize_score_pairwise score collection hsorted
  exact hmat.sublist (subway_post_filter_sublist params _)

/-- C4.  The fused score of each candidate is the RRF sum
`0.7 × 1/(60+r_text) + 0.3 × 1/(60+r_vec)` with 1-based per-pass ranks and
zero contribution from a pass missing the listing; and along every returned
result sequence of `hybrid_search` the fused score is monotonically
non-increasing. -/
theorem hybrid_rrf_score_monotone :
    (∀ (textIds vecIds : List Nat) (tid : Nat), textIds.Nodup → vecIds.Nodup →
      rrf_score textIds vecIds tid =
        (if tid ∈ textIds then
          (7 / 10 : ℚ) * (1 / (60 + ((textIds.indexOf tid : ℚ) + 1))) else 0) +
        (if tid ∈ vecIds then
          (3 / 10 : ℚ) * (1 / (60 + ((vecIds.indexOf tid : ℚ) + 1))) else 0)) ∧
    ∀ (params : SearchParams) (textOutcome vecOutcome : Except Unit (List Doc))
      (collection : List Doc) (top_k : Nat),
      ((hybrid_search params textOutcome vecOutcome collection top_k).results.map
        fun p => rrf_score ((pass_docs textOutcome).map Doc.docId)
          ((pass_docs vecOutcome).map Doc.docId) p.2.docId).Chain'
        fun a b => b ≤ a := by
  refine ⟨rrf_score_formula, ?_⟩
  intro params textOutcome vecOutcome collection top_k
  set score := rrf_score ((pass_docs textOutcome).map Doc.docId)
    ((pass_docs vecOutcome).map Doc.docId) with hscore
  by_cases h1 : (candidate_ids ((pass_docs textOutcome).map Doc.docId)
      ((pass_docs vecOutcome).map Doc.docId)).isEmpty
  · simp [hybrid_search, h1, no_match_result]
  · by_cases h2 : (fused_candidate_docs params textOutcome vecOutcome collection top_k).isEmpty
    · simp [hybrid_search, h1, h2, no_match_result]
    · have hres : (hybrid_search params textOutcome vecOutcome collection top_k).results =
          (fused_candidate_docs params textOutcome vecOutcome collection top_k).enum.map
            fun p => (p.1 + 1, p.2) := by
        simp [hybrid_search, h1, h2]
      rw [hres]
      have hmaps : (((fused_candidate_docs params textOutcome vecOutcome collection
          top_k).enum.map fun p => (p.1 + 1, p.2)).map fun p => score p.2.docId) =
          (fused_candidate_docs params textOutcome vecOutcome collection top_k).map
            fun d => score d.docId := by
        rw [List.map_map]
        rw [show ((fun p : Nat × Doc => score p.2.docId) ∘ fun p : Nat × Doc => (p.1 + 1, p.2)) =
          ((fun d : Doc => score d.docId) ∘ Prod.snd) from rfl]
        rw [← List.map_map, List.enum_map_snd]
      rw [hmaps]
      have hpair := fused_candidate_docs_pairwise params textOutcome vecOutcome collection top_k
      exact (List.pairwise_map.mpr hpair).chain'

/-- Witness for C4: the formula clause at text pass `[5, 6]`, vector pass
`[6, 9]`, listing `6` (rank 2 lexically, rank 1 vectorially). -/
theorem hybrid_rrf_score_monotone_witness :
    (([5, 6] : List Nat).Nodup ∧ ([6, 9] : List Nat).Nodup) ∧
    rrf_score [5, 6] [6, 9] 6 =
      (if 6 ∈ ([5, 6] : List Nat) then
        (7 / 10 : ℚ) * (1 / (60 + ((([5, 6] : List Nat).indexOf 6 : ℚ) + 1))) else 0) +
      (if 6 ∈ ([6, 9] : List Nat) then
        (3 / 10 : ℚ) * (1 / (60 + ((([6, 9] : List Nat).indexOf 6 : ℚ) + 1))) else 0) := by
  refine ⟨⟨by decide, by decide⟩, ?_⟩
  exact hybrid_rrf_score_monotone.1 [5, 6] [6, 9] 6 (by decide) (by decide)

/-! ### Pass-failure isolation -/

theorem mem_insert_key (acc : List Nat) (x a : Nat) :
    a ∈ insert_key acc x ↔ a ∈ acc ∨ a = x := by
  rw [insert_key]
  split
  · constructor
    · exact fun h => Or.inl h
    · rintro (h | rfl)
      · exact h
      · assumption
  · simp [List.mem_append]

theorem mem_foldl_insert_key :
    ∀ (l acc : List Nat) (a : Nat), a ∈ l.foldl insert_key acc ↔ a ∈ acc ∨ a ∈ l := by
  intro l
  induction l with
  | nil => intro acc a; simp
  | cons x xs ih =>
    intro acc a
    rw [List.foldl_cons, ih, mem_insert_key]
    constructor
    · rintro ((h | h) | h)
      · exact Or.inl h
      · exact Or.inr (by simp [h])
      · exact Or.inr (List.mem_cons_of_mem x h)
    · rintro (h | h)
      · exact Or.inl (Or.inl h)
      · rcases List.mem_cons.mp h with h | h
        · exact Or.inl (Or.inr h)
        · exact Or.inr h

theorem candidate_ids_mem (t v : List Nat) (a : Nat) :
    a ∈ candidate_ids t v ↔ a ∈ t ∨ a ∈ v := by
  rw [candidate_ids, mem_foldl_insert_key]
  simp [List.mem_append]

theorem take_ne_nil_of_pos {α : Type} {l : List α} {k : Nat}
    (hk : 1 ≤ k) (hl : l ≠ []) : l.take k ≠ [] := by
  cases l with
  | nil => exact absurd rfl hl
  | cons x xs =>
    cases k with
    | zero => omega
    | succ k => simp

/-- The transit post-filter is applied only on a subway search with a
station name. -/
theorem subway_post_filter_id (params : SearchParams) (docs : List Doc)
    (h : ¬(params.requireSubway = true ∧ params.stationName.isSome = true)) :
    subway_post_filter params docs = docs := by
  rw [subway_post_filter, if_neg h]

theorem materialize_ne_nil {collection : List Doc} {ids : List Nat}
    (h : ∃ d ∈ collection, d.docId ∈ ids) : materialize collection ids ≠ [] := by
  obtain ⟨d, hd, hid⟩ := h
  intro hnil
  have hfilter : d ∈ collection.filter fun x => x.docId ∈ ids :=
    List.mem_filter.mpr ⟨hd, decide_eq_true hid⟩
  have hp : List.Perm (materialize collection ids) (collection.filter fun x => x.docId ∈ ids) :=
    List.perm_insertionSort _ _
  rw [hnil] at hp
  rw [hp.symm.eq_nil] at hfilter
  cases hfilter

/-- Parameters of a station-constrained search (`강남역 근처 1000m`). -/
def subwayParams : SearchParams :=
  { gu := none, dong := none, requireRent := none, depMax := none, monMax := none,
    requireSubway := true, maxDist := 1000, stationName := some "강남" }

/-- A vector-pass document whose nearest station does not match the
requested one (approximate-match leakage). -/
def leakDoc : Doc := { docId := 1, nearestStation := some "서초", distanceToStation := some 500 }

/-- C5 counterexample.  The claim says a no-result outcome occurs only when
both passes yield no candidates.  With the lexical pass failing and the
vector pass returning `leakDoc`, a station-constrained search still returns
the no-match dict because the exact transit post-filter removes the leaked
candidate — one pass yielded a candidate, yet the engine reports no result. -/
theorem hybrid_postfilter_noresult_cx :
    hybrid_search subwayParams (.error ()) (.ok [leakDoc]) [leakDoc] 30 = no_match_result ∧
    pass_docs (.ok [leakDoc]) ≠ [] := by
  constructor
  · rfl
  · simp [pass_docs]

/-- C5 (amended).  The embedding falls back to the zero vector after all 3
attempts fail; a raised pass contributes exactly what an empty pass would
(the other pass is still fused and returned); with at least one surviving
vector-pass candidate present in the store, `top_k ≥ 1`, and no transit
post-filter, the engine returns a non-empty result; and the engine returns
the no-match outcome precisely when the fusion map is empty or the transit
post-filter removed every fused candidate. -/
theorem hybrid_pass_failure_isolation :
    get_embedding [none, none, none] = zero_vector ∧
    (∀ (params : SearchParams) (vecOutcome : Except Unit (List Doc))
      (collection : List Doc) (top_k : Nat),
      hybrid_search params (.error ()) vecOutcome collection top_k =
        hybrid_search params (.ok []) vecOutcome collection top_k) ∧
    (∀ (params : SearchParams) (textOutcome : Except Unit (List Doc))
      (collection : List Doc) (top_k : Nat),
      hybrid_search params textOutcome (.error ()) collection top_k =
        hybrid_search params textOutcome (.ok []) collection top_k) ∧
    (∀ (params : SearchParams) (vdocs collection : List Doc) (top_k : Nat),
      ¬(params.requireSubway = true ∧ params.stationName.isSome = true) →
      vdocs ≠ [] → (∀ d ∈ vdocs, d ∈ collection) → 1 ≤ top_k →
      (hybrid_search params (.error ()) (.ok vdocs) collection top_k).results ≠ []) ∧
    ∀ (params : SearchParams) (textOutcome vecOutcome : Except Unit (List Doc))
      (collection : List Doc) (top_k : Nat),
      (hybrid_search params textOutcome vecOutcome collection top_k = no_match_result ↔
        candidate_ids ((pass_docs textOutcome).map Doc.docId)
          ((pass_docs vecOutcome).map Doc.docId) = [] ∨
        fused_candidate_docs params textOutcome vecOutcome collection top_k = []) := by
  refine ⟨rfl, fun _ _ _ _ => rfl, fun _ _ _ _ => rfl, ?_, ?_⟩
  · intro params vdocs collection top_k hnosub hne hsubset hk
    obtain ⟨d0, hd0⟩ := List.exists_mem_of_ne_nil vdocs hne
    have hcand_ne : candidate_ids (([] : List Doc).map Doc.docId) (vdocs.map Doc.docId) ≠ [] := by
      have : d0.docId ∈ candidate_ids (([] : List Doc).map Doc.docId) (vdocs.map Doc.docId) :=
        (candidate_ids_mem _ _ _).mpr (Or.inr (List.mem_map_of_mem Doc.docId hd0))
      exact List.ne_nil_of_mem this
    have h1 : (candidate_ids ((pass_docs (.error () : Except Unit (List Doc))).map Doc.docId)
        ((pass_docs (.ok vdocs : Except Unit (List Doc))).map Doc.docId)).isEmpty = false := by
      rw [show pass_docs (.error () : Except Unit (List Doc)) = ([] : List Doc) from rfl,
        show pass_docs (.ok vdocs : Except Unit (List Doc)) = vdocs from rfl]
      cases hc : candidate_ids (([] : List Doc).map Doc.docId) (vdocs.map Doc.docId) with
      | nil => exact absurd hc hcand_ne
      | cons a l => simp
    have hfus : fused_candidate_docs params (.error ()) (.ok vdocs) collection top_k ≠ [] := by
      rw [fused_candidate_docs]
      rw [subway_post_filter_id params _ hnosub]
      set score := rrf_score ((pass_docs (.error () : Except Unit (List Doc))).map Doc.docId)
        ((pass_docs (.ok vdocs : Except Unit (List Doc))).map Doc.docId)
      have hsort_ne : sort_desc score (candidate_ids
          ((pass_docs (.error () : Except Unit (List Doc))).map Doc.docId)
          ((pass_docs (.ok vdocs : Except Unit (List Doc))).map Doc.docId)) ≠ [] := by
        intro hnil
        have hp : List.Perm (sort_desc score (candidate_ids
            ((pass_docs (.error () : Except Unit (List Doc))).map Doc.docId)
            ((pass_docs (.ok vdocs : Except Unit (List Doc))).map Doc.docId)))
            (candidate_ids ((pass_docs (.error () : Except Unit (List Doc))).map Doc.docId)
              ((pass_docs (.ok vdocs : Except Unit (List Doc))).map Doc.docId)) :=
          List.perm_insertionSort _ _
        rw [hnil] at hp
        exact hcand_ne hp.symm.eq_nil
      have htake := take_ne_nil_of_pos hk hsort_ne
      obtain ⟨x, hx⟩ := List.exists_mem_of_ne_nil _ htake
      have hxcand : x ∈ candidate_ids (([] : List Doc).map Doc.docId) (vdocs.map Doc.docId) :=
        (List.perm_insertionSort _ _).subset ((List.take_sublist _ _).subset hx)
      have hxv : x ∈ vdocs.map Doc.docId := by
        rcases (candidate_ids_mem _ _ x).mp hxcand with h | h
        · cases h
        · exact h
      obtain ⟨dx, hdx, hdxid⟩ := List.mem_map.mp hxv
      apply materialize_ne_nil
      exact ⟨dx, hsubset dx hdx, by rw [hdxid]; exact hx⟩
    have h2 : (fused_candidate_docs params (.error ()) (.ok vdocs) collection
        top_k).isEmpty = false := by
      cases hfc : fused_candidate_docs params (.error ()) (.ok vdocs) collection top_k with
      | nil => exact absurd hfc hfus
      | cons a l => simp
    rw [hybrid_search]
    simp only [h1, h2, Bool.false_eq_true, if_false]
    cases hfc : fused_candidate_docs params (.error ()) (.ok vdocs) collection top_k with
    | nil => exact absurd hfc hfus
    | cons a l => simp
  · intro params textOutcome vecOutcome collection top_k
    by_cases h1 : (candidate_ids ((pass_docs textOutcome).map Doc.docId)
        ((pass_docs vecOutcome).map Doc.docId)).isEmpty
    · have hc : candidate_ids ((pass_docs textOutcome).map Doc.docId)
          ((pass_docs vecOutcome).map Doc.docId) = [] := List.isEmpty_iff.mp h1
      constructor
      · intro _
        exact Or.inl hc
      · intro _
        rw [hybrid_search]
        simp [h1]
    · by_cases h2 : (fused_candidate_docs params textOutcome vecOutcome collection
          top_k).isEmpty
      · have hf : fused_candidate_docs params textOutcome vecOutcome collection top_k = [] :=
          List.isEmpty_iff.mp h2
        constructor
        · intro _
          exact Or.inr hf
        · intro _
          rw [hybrid_search]
          simp [h1, h2]
      · constructor
        · intro heq
          exfalso
          have hres : (hybrid_search params textOutcome vecOutcome collection
              top_k).results = [] := by rw [heq]; rfl
          rw [hybrid_search] at hres
          simp only [Bool.not_eq_true] at h1 h2
          simp only [h1, h2, Bool.false_eq_true, if_false] at hres
          cases hfc : fused_candidate_docs params textOutcome vecOutcome collection top_k with
          | nil =>
            rw [hfc] at h2
            simp at h2
          | cons a l =>
            rw [hfc] at hres
            simp at hres
        · rintro (hc | hf)
          · exact absurd (by simp [hc]) h1
          · exact absurd (by simp [hf]) h2

/-- Witness for C5: the surviving-pass clause at a one-document vector pass
with no transit filter. -/
theorem hybrid_pass_failure_isolation_witness :
    (¬((⟨none, none, none, none, none, false, 1000, none⟩ :
        SearchParams).requireSubway = true ∧
      (⟨none, none, none, none, none, false, 1000, none⟩ :
        SearchParams).stationName.isSome = true) ∧
      ([⟨1, none, none⟩] : List Doc) ≠ [] ∧ 1 ≤ 30) ∧
    (hybrid_search ⟨none, none, none, none, none, false, 1000, none⟩ (.error ())
      (.ok [⟨1, none, none⟩]) [⟨1, none, none⟩] 30).results ≠ [] := by
  refine ⟨⟨by decide, by decide, by decide⟩, ?_⟩
  exact hybrid_pass_failure_isolation.2.2.2.1 ⟨none, none, none, none, none, false, 1000, none⟩
    [⟨1, none, none⟩] [⟨1, none, none⟩] 30 (by decide) (by decide)
    (by intro d hd; simpa using hd) (by decide)

/-! ## Intent decomposer (`TaskParser`, lines 273-673)

The LLM analysis result and the complex-task JSON are external inputs,
passed in as structured values.  Parser-level tasks carry the fields the
decomposition branches set; `data["source"]`/`data["llm_reasoning"]` do not
influence control flow and are omitted. -/

/-- `re.search(r'([가-힣]+(동|역|구))', query)`: the first location token. -/
def extract_location_from_query (q : List Tok) : Option String :=
  q.findSome? locVal

/-- The fields of the parsed LLM intent analysis that the decomposition
branches read. -/
structure IntentData where
  primaryIntent : String
  secondaryIntents : List String
  isComplexRequest : Bool
  requiresExistingData : Bool
deriving DecidableEq, Repr

structure PTask where
  taskId : String
  taskType : ATType
  description : String
  dataQuery : List Tok
  dataResponse : Option String
  priority : Nat
  dependencies : List String
deriving DecidableEq, Repr

/-- The predefined location re-question task (lines 438-448). -/
def location_request_task (userQuery : List Tok) : PTask :=
  { taskId := "location_request", taskType := .chat, description := "위치 정보 재질문",
    dataQuery := userQuery,
    dataResponse := some "어느 지역의 매물을 찾으시나요? 예를 들어 서초구, 방배동, 강남역 근처 등으로 말씀해 주세요.",
    priority := 1, dependencies := [] }

/-- The no-existing-results chat fallback (`chat_no_results`). -/
def chat_no_results_task (userQuery : List Tok) : PTask :=
  { taskId := "chat_no_results", taskType := .chat, description := "기존 결과 없음 - 일반 대화",
    dataQuery := userQuery, dataResponse := none, priority := 3, dependencies := [] }

/-- The `task_type_map` dict with its `TaskType.CHAT` default. -/
def task_type_map (s : String) : ATType :=
  if s = "SEARCH" then .search
  else if s = "SIMILARITY_SEARCH" then .similaritySearch
  else if s = "ANALYSIS" then .analysis
  else if s = "RECOMMENDATION" then .recommendation
  else if s = "COMPARISON" then .comparison
  else if s = "WISHLIST" then .wishlist
  else .chat

/-- `str.lower()` restricted to the primary-intent vocabulary. -/
def intent_lower (s : String) : String :=
  if s = "SEARCH" then "search"
  else if s = "SIMILARITY_SEARCH" then "similarity_search"
  else if s = "ANALYSIS" then "analysis"
  else if s = "RECOMMENDATION" then "recommendation"
  else if s = "COMPARISON" then "comparison"
  else if s = "WISHLIST" then "wishlist"
  else if s = "CHAT" then "chat"
  else s

/-- Most recent history entry whose extracted location matches, with a
non-empty record list (the RECOMMENDATION region branch, lines 498-515). -/
def region_results (history : List HistEntry) (loc : Option String) : Option (List Nat) :=
  match loc with
  | some l =>
    match (history.reverse.find? fun e => decide (e.location = some l) && !e.results.isEmpty) with
    | some e => some e.results
    | none => none
  | none =>
    match history.getLast? with
    | some e => if e.results.isEmpty then none else some e.results
    | none => none

/-- `TaskParser._create_simple_task_from_llm` (lines 341-600) from the
location gate on.  The context enrichment of lines 346-431 only computes
`enhanced_query`, which is taken as an input here; the gate at lines 432-448
is the first return point of the function. -/
def create_simple_task_from_llm (intent : IntentData) (userQuery enhancedQuery : List Tok)
    (searchHistory : List HistEntry) : List PTask :=
  if intent.primaryIntent = "SEARCH" ∧ extract_location_from_query enhancedQuery = none then
    [location_request_task userQuery]
  else if intent.requiresExistingData then
    if intent.primaryIntent = "COMPARISON" then
      match resolve_references userQuery searchHistory with
      | none => [chat_no_results_task userQuery]
      | some refs =>
        if refs.length < 2 then [chat_no_results_task userQuery]
        else
          [{ taskId := "llm_comparison_001", taskType := .comparison,
             description := "LLM 분석 기반 COMPARISON 작업", dataQuery := userQuery,
             dataResponse := none, priority := 1, dependencies := [] }]
    else if intent.primaryIntent = "RECOMMENDATION" then
      match region_results searchHistory (extract_location_from_query userQuery) with
      | some _ =>
        [{ taskId := "llm_recommendation_existing_region", taskType := .recommendation,
           description := "기존 검색 결과로 추천", dataQuery := userQuery,
           dataResponse := none, priority := 1, dependencies := [] }]
      | none =>
        [{ taskId := "search_for_recommendation", taskType := .search,
           description := "매물 검색", dataQuery := userQuery, dataResponse := none,
           priority := 1, dependencies := [] },
         { taskId := "recommendation_after_search", taskType := .recommendation,
           description := "검색 결과로 추천", dataQuery := userQuery, dataResponse := none,
           priority := 2, dependencies := ["search_for_recommendation"] }]
    else
      match searchHistory.getLast? with
      | some e =>
        if e.results.isEmpty then [chat_no_results_task userQuery]
        else
          [{ taskId := "llm_" ++ intent_lower intent.primaryIntent ++ "_001",
             taskType := task_type_map intent.primaryIntent,
             description := "LLM 분석 기반 작업", dataQuery := enhancedQuery,
             dataResponse := none, priority := 1, dependencies := [] }]
      | none => [chat_no_results_task userQuery]
  else
    [{ taskId := "llm_" ++ intent_lower intent.primaryIntent ++ "_001",
       taskType := task_type_map intent.primaryIntent,
       description := "LLM 분석 기반 작업", dataQuery := enhancedQuery,
       dataResponse := none, priority := 1, dependencies := [] }]

/-- One entry of the complex-task JSON returned by the LLM. -/
structure ComplexTaskSpec where
  taskTypeStr : String
  description : String
  priorityStr : String
  dependsOn : List String
deriving DecidableEq, Repr

def priority_map (s : String) : Nat :=
  if s = "HIGH" then 1 else if s = "MEDIUM" then 2 else if s = "LOW" then 3 else 2

/-- `f"llm_complex_{i+1:03d}"`. -/
def complex_id (i : Nat) : String :=
  "llm_complex_" ++
    (if i + 1 < 10 then "00" ++ toString (i + 1)
     else if i + 1 < 100 then "0" ++ toString (i + 1)
     else toString (i + 1))

/-- `type_to_id`: dict insertion over all specs, the later index winning for
a repeated task-type string. -/
def type_to_id (specs : List ComplexTaskSpec) (ty : String) : Option String :=
  ((specs.enum.filter fun p => p.2.taskTypeStr = ty).getLast?).map fun p => complex_id p.1

/-- `TaskParser._create_complex_tasks_from_llm` (lines 602-668): build one
task per spec entry, dependencies mapped from task-type names to the
generated ids (names without a generated id are dropped).  No location gate
exists on this path. -/
def create_complex_tasks_from_llm (userQuery : List Tok)
    (specs : List ComplexTaskSpec) : List PTask :=
  specs.enum.map fun p =>
    { taskId := complex_id p.1, taskType := task_type_map p.2.taskTypeStr,
      description := p.2.description, dataQuery := userQuery, dataResponse := none,
      priority := priority_map p.2.priorityStr,
      dependencies := p.2.dependsOn.filterMap (type_to_id specs) }

/-- `TaskParser._analyze_intent_with_llm` (lines 327-331): secondary intents
or the complex flag select the complex path. -/
def analyze_intent_with_llm (intent : IntentData) (specs : List ComplexTaskSpec)
    (userQuery enhancedQuery : List Tok) (searchHistory : List HistEntry) : List PTask :=
  if intent.secondaryIntents ≠ [] ∨ intent.isComplexRequest then
    create_complex_tasks_from_llm userQuery specs
  else
    create_simple_task_from_llm intent userQuery enhancedQuery searchHistory

/-- C9 counterexample.  The claim says every decomposition with Retrieval
primary intent over a location-free utterance substitutes a single
Conversational task.  A complex decomposition (secondary intents present)
takes `_create_complex_tasks_from_llm`, which has no location gate: the
location-free utterance still yields a SEARCH task. -/
theorem complex_path_search_without_location_cx :
    extract_location_from_query [Tok.other] = none ∧
    (analyze_intent_with_llm ⟨"SEARCH", ["ANALYSIS"], false, false⟩
      [⟨"SEARCH", "매물 검색", "HIGH", []⟩, ⟨"ANALYSIS", "매물 분석", "MEDIUM", ["SEARCH"]⟩]
      [Tok.other] [Tok.other] []).map PTask.taskType = [.search, .analysis] :=
  ⟨rfl, rfl⟩

/-- C9 (amended).  On the simple (single-intent) path, a Retrieval intent
whose enhanced query still has no extractable location is replaced by the
single location re-question Conversational task; and independently,
`search_properties` with a parse carrying no district/sub-district/station
returns the location re-question outcome without ever invoking
`hybrid_search`. -/
theorem location_gate_and_search_guard :
    (∀ (intent : IntentData) (userQuery enhancedQuery : List Tok)
        (history : List HistEntry),
      intent.primaryIntent = "SEARCH" → extract_location_from_query enhancedQuery = none →
      create_simple_task_from_llm intent userQuery enhancedQuery history =
        [location_request_task userQuery]) ∧
    ∀ (params : SearchParams) (textOutcome vecOutcome : Except Unit (List Doc))
      (collection : List Doc) (top_k : Nat),
      has_location params = false →
      search_properties params textOutcome vecOutcome collection top_k =
        .locationRequest := by
  constructor
  · intro intent userQuery enhancedQuery history h1 h2
    rw [create_simple_task_from_llm, if_pos ⟨h1, h2⟩]
  · intro params textOutcome vecOutcome collection top_k h
    rw [search_properties, if_neg (by rw [h]; exact Bool.false_ne_true)]

/-- Witness for C9: the gate at a SEARCH intent over a location-free
utterance, and the guard at location-free parameters. -/
theorem location_gate_and_search_guard_witness :
    ((⟨"SEARCH", [], false, false⟩ : IntentData).primaryIntent = "SEARCH" ∧
      extract_location_from_query [Tok.other] = none ∧
      has_location ⟨none, none, none, none, none, false, 1000, none⟩ = false) ∧
    create_simple_task_from_llm ⟨"SEARCH", [], false, false⟩ [Tok.other] [Tok.other] [] =
      [location_request_task [Tok.other]] ∧
    search_properties ⟨none, none, none, none, none, false, 1000, none⟩ (.ok []) (.ok [])
      [] 30 = .locationRequest := by
  refine ⟨⟨rfl, rfl, rfl⟩, ?_, ?_⟩
  · exact location_gate_and_search_guard.1 ⟨"SEARCH", [], false, false⟩ [Tok.other]
      [Tok.other] [] rfl rfl
  · exact location_gate_and_search_guard.2 ⟨none, none, none, none, none, false, 1000, none⟩
      (.ok []) (.ok []) [] 30 rfl

/-! ## Ephemeral context store reset (`__init__` lines 1626-1635,
`load_search_history_from_tempfile` lines 1713-1729)

The process-temp `search_history.json` is modelled as `none` (file absent)
or its list of JSON lines; the outcome of the `os.remove` call is an
explicit `Except` input, since `__init__` catches and merely logs a raised
removal. -/

structure HistLine where
  query : List Tok
  results : List Nat
deriving DecidableEq, Repr

/-- `__init__` lines 1626-1635: when the file exists, `try: os.remove(…)`.
On `.ok` the file is gone; on `.error` (the `except` branch) the failure is
only logged and the file survives.  An absent file is left absent. -/
def init_search_history (removeOutcome : Except Unit Unit)
    (fs : Option (List HistLine)) : Option (List HistLine) :=
  match fs with
  | some lines =>
    match removeOutcome with
    | .ok _ => none
    | .error _ => some lines
  | none => none

/-- `load_search_history_from_tempfile`: parse each line into a history
entry carrying the location extracted from the stored query and the stored
record list. -/
def load_search_history_from_tempfile (fs : Option (List HistLine)) : List HistEntry :=
  match fs with
  | none => []
  | some lines =>
    lines.map fun l =>
      { location := extract_location_from_query l.query, results := l.results }

/-- `os.path.exists(storage_path) and os.path.getsize(storage_path) > 0`
(line 304), the "existing results" check. -/
def has_existing_results (fs : Option (List HistLine)) : Bool :=
  match fs with
  | none => false
  | some lines => !lines.isEmpty

/-- C10 counterexample.  The claim says that immediately after construction
the ephemeral context store is empty.  When `os.remove` raises, `__init__`
only logs the failure (lines 1634-1635): the populated temp file survives
construction, the loaded history still holds the prior entry, and the
existing-results check still passes. -/
theorem init_failed_remove_keeps_history_cx :
    load_search_history_from_tempfile
      (init_search_history (.error ()) (some [⟨[Tok.loc "서초구"], [4, 5]⟩])) =
      [⟨some "서초구", [4, 5]⟩] ∧
    has_existing_results
      (init_search_history (.error ()) (some [⟨[Tok.loc "서초구"], [4, 5]⟩])) = true :=
  ⟨rfl, rfl⟩

/-- C10 (amended).  When the removal succeeds (and always when the file was
already absent), the temp file is gone right after construction, so the
ephemeral context store is empty: the loaded history is `[]`, the
existing-results check is false, and ordinal reference resolution over the
loaded history selects no records; a raised removal is only logged and
leaves the file as it was. -/
theorem init_clears_search_history (fs : Option (List HistLine)) :
    init_search_history (.ok ()) fs = none ∧
    (∀ removeOutcome : Except Unit Unit, init_search_history removeOutcome none = none) ∧
    load_search_history_from_tempfile (init_search_history (.ok ()) fs) = [] ∧
    has_existing_results (init_search_history (.ok ()) fs) = false ∧
    ∀ ns : List Nat, ns ≠ [] →
      resolve_references (ns.map Tok.num)
        (load_search_history_from_tempfile (init_search_history (.ok ()) fs)) = some [] := by
  have hinit : init_search_history (.ok ()) fs = none := by
    cases fs <;> rfl
  refine ⟨hinit, fun _ => rfl, by rw [hinit]; rfl, by rw [hinit]; rfl, ?_⟩
  intro ns hne
  rw [hinit]
  show resolve_references (ns.map Tok.num) [] = some []
  have h1 : loc_num_groups (ns.map Tok.num) = [] := loc_num_groups_nums ns
  have h2 : loc_list (ns.map Tok.num) = [] := loc_list_map_num ns
  have h3 : num_list (ns.map Tok.num) = ns := filterMap_numVal_map_num ns
  simp only [resolve_references, h1, h2, h3]
  rw [if_neg (by simp)]
  rw [if_neg (by simp)]
  rw [if_neg (by simp)]
  rw [if_pos ⟨trivial, hne⟩]
  congr 1
  have hfold : ∀ (l acc : List Nat),
      l.foldl (fun acc n => acc ++ match ([] : List HistEntry).getLast? with
        | some e => (pick_record e.results n).toList
        | none => []) acc = acc := by
    intro l
    induction l with
    | nil => intro acc; rfl
    | cons x xs ih =>
      intro acc
      rw [List.foldl_cons, ih]
      simp
  exact hfold ns []

/-- Witness for C10: a populated temp file, successful removal during
construction; two ordinals then resolve to nothing. -/
theorem init_clears_search_history_witness :
    (([2, 3] : List Nat) ≠ []) ∧
    resolve_references ([2, 3].map Tok.num)
      (load_search_history_from_tempfile
        (init_search_history (.ok ()) (some [⟨[Tok.loc "서초구"], [4, 5]⟩]))) = some [] := by
  refine ⟨by decide, ?_⟩
  exact (init_clears_search_history (some [⟨[Tok.loc "서초구"], [4, 5]⟩])).2.2.2.2 [2, 3]
    (by decide)

end HouseAI
